import Mathlib

/-!
Verification of the semantic structure-extraction core of the repository
(`packages/semantic/src`): a shallow embedding in Lean 4 of the rule engine,
the border / axis / column / wall / room / door detectors and the orchestrator
(`build_all_records`), together with theorems settling the specified claims.

Modelling conventions:
* Python floats are modelled as exact rationals (`ℚ`).
* `math.sqrt` has the rational stand-in `ratSqrt`, exact on perfect squares;
  every comparison the source makes between square roots is translated into
  the equivalent exact comparison between squares (both sides non-negative),
  so no theorem depends on the approximation.
* `round(x, n)` is modelled as exact decimal round-half-to-even (`roundHalfEven`).
* CAD entities are Python dicts probed with `.get`; they are modelled as
  records whose probed fields are `Option`-typed (`none` = key missing).
  The source's `isinstance` guards against non-dict garbage are dropped:
  the model's lists contain only well-formed records.
* Python dicts keep insertion order; they are modelled as association lists.
-/

namespace Laika

/-- Python banker's rounding (round half to even) of an exact rational to an integer,
the semantics of `round(x)` on an exactly-representable value. -/
def roundHalfEven (q : ℚ) : ℤ :=
  let f : ℤ := ⌊q⌋
  let r : ℚ := q - (f : ℚ)
  if r < 1/2 then f
  else if 1/2 < r then f + 1
  else if f % 2 = 0 then f else f + 1

/-- Python `round(x, 2)` on an exact rational. -/
def round2 (q : ℚ) : ℚ := ((roundHalfEven (q * 100) : ℤ) : ℚ) / 100

/-- Python `round(x, 4)` on an exact rational. -/
def round4 (q : ℚ) : ℚ := ((roundHalfEven (q * 10000) : ℤ) : ℚ) / 10000

/-- Newton iteration for the integer square root with explicit structural fuel
(the guess strictly decreases, so fuel `n` is never exhausted); a fuel-based
copy of the standard library's `Nat.sqrt`, executable by kernel reduction. -/
def natSqrtF : ℕ → ℕ → ℕ → ℕ
  | 0, _, g => g
  | fuel + 1, n, g =>
    let next := (g + n / g) / 2
    if next < g then natSqrtF fuel n next else g

/-- Integer square root (floor). -/
def natSqrt (n : ℕ) : ℕ := if n ≤ 1 then n else natSqrtF n n (n / 2)

/-- Rational stand-in for `math.sqrt`: exact whenever the argument is the square
of a rational, a floor-style approximation otherwise.  No theorem below depends
on the value taken in the inexact case. -/
def ratSqrt (q : ℚ) : ℚ :=
  if q ≤ 0 then 0
  else
    let n := q.num.toNat
    let d := q.den
    if natSqrt n * natSqrt n = n ∧ natSqrt d * natSqrt d = d then
      ((natSqrt n : ℤ) : ℚ) / ((natSqrt d : ℤ) : ℚ)
    else
      ((natSqrt (n * d) : ℤ) : ℚ) / ((d : ℤ) : ℚ)

/-- Little-endian base-10 digits with explicit structural fuel (the value
strictly decreases under division by 10, so fuel `n` is never exhausted). -/
def natDigitsF : ℕ → ℕ → List ℕ
  | 0, _ => []
  | _ + 1, 0 => []
  | fuel + 1, n + 1 => (n + 1) % 10 :: natDigitsF fuel ((n + 1) / 10)

/-- Decimal rendering of a natural number, the semantics of Python string
interpolation of a non-negative integer (as in the labels `C1`, `X1`, `Y1`). -/
def natToStr (n : ℕ) : String :=
  if n = 0 then "0"
  else String.mk (((natDigitsF n n).reverse).map Nat.digitChar)

/-- Stand-in for `math.cos` on an angle in degrees: exact on multiples of 90°,
a truncated series elsewhere.  Only the exact branch is exercised by theorems. -/
def cosDeg (θ : ℚ) : ℚ :=
  let t : ℚ := θ / 90
  if t.den = 1 then
    match (t.num % 4 + 4) % 4 with
    | 0 => 1
    | 1 => 0
    | 2 => -1
    | _ => 0
  else
    let x : ℚ := θ * 355 / (113 * 180)
    1 - x^2/2 + x^4/24 - x^6/720

/-- Stand-in for `math.sin` on an angle in degrees (see `cosDeg`). -/
def sinDeg (θ : ℚ) : ℚ :=
  let t : ℚ := θ / 90
  if t.den = 1 then
    match (t.num % 4 + 4) % 4 with
    | 0 => 0
    | 1 => 1
    | 2 => 0
    | _ => -1
  else
    let x : ℚ := θ * 355 / (113 * 180)
    x - x^3/6 + x^5/120

/-- Planar point, the `(x, y)` tuples of `geometry.py`. -/
abbrev Point := ℚ × ℚ

/-- Coordinate dict `{"x": ..., "y": ...}` whose keys may be missing
(`v.get("x")` returning `None` is `none`). -/
structure Vertex where
  x : Option ℚ
  y : Option ℚ
deriving DecidableEq, Repr

/-- World-space bounding box (keys `xmin`/`ymin`/`xmax`/`ymax`). -/
structure Bbox where
  xmin : ℚ
  ymin : ℚ
  xmax : ℚ
  ymax : ℚ
deriving DecidableEq, Repr

/-- Local (block-space) bounding box (keys `min_x`/`min_y`/`max_x`/`max_y`). -/
structure LBbox where
  min_x : ℚ
  min_y : ℚ
  max_x : ℚ
  max_y : ℚ
deriving DecidableEq, Repr

/-- A DXF entity: a Python dict; every field the core probes is optional. -/
structure Entity where
  type : Option String := none
  layer : Option String := none
  layerName : Option String := none
  name : Option String := none
  block : Option String := none
  block_name : Option String := none
  handle : Option String := none
  vertices : Option (List Vertex) := none
  startPoint : Option Vertex := none
  endPoint : Option Vertex := none
  start : Option Vertex := none
  stop : Option Vertex := none          -- the `"end"` key (`end` is reserved in Lean)
  start_point : Option Vertex := none
  end_point : Option Vertex := none
  center : Option Vertex := none
  position : Option Vertex := none
  insertionPoint : Option Vertex := none
  radius : Option ℚ := none
  x : Option ℚ := none
  y : Option ℚ := none
  xScale : Option ℚ := none
  yScale : Option ℚ := none
  rotation : Option ℚ := none
  text : Option String := none
  textString : Option String := none
  contents : Option String := none
deriving DecidableEq, Repr

/-- ASCII uppercase of one character (Python `str.upper` on the ASCII names
this data model carries), executable by kernel reduction. -/
def charUpper (c : Char) : Char :=
  if 'a' ≤ c ∧ c ≤ 'z' then Char.ofNat (c.toNat - 32) else c

/-- ASCII uppercase of a string. -/
def strUpper (s : String) : String := String.mk (s.data.map charUpper)

/-- ASCII whitespace test for `strTrim`. -/
def isWs (c : Char) : Bool := c = ' ' ∨ c = '\t' ∨ c = '\n' ∨ c = '\r'

/-- Whitespace stripped from both ends (Python `str.strip`), executable by
kernel reduction. -/
def strTrim (s : String) : String :=
  String.mk (((s.data.dropWhile isWs).reverse.dropWhile isWs).reverse)

/-- Prefix test on character lists. -/
def chPrefix : List Char → List Char → Bool
  | [], _ => true
  | _ :: _, [] => false
  | a :: as, b :: bs => a = b && chPrefix as bs

/-- Contiguous-sublist test on character lists. -/
def chSub (sub : List Char) : List Char → Bool
  | [] => sub.isEmpty
  | b :: rest => chPrefix sub (b :: rest) || chSub sub rest

/-- Python `a or b` on two optional strings, where `""` is falsy. -/
def orS (a b : Option String) : Option String :=
  match a with
  | some s => if s = "" then b else some s
  | none => b

/-- Python `a or b` on two optional point dicts (a present dict is truthy;
the model treats every present dict as non-empty). -/
def orV (a b : Option Vertex) : Option Vertex :=
  match a with
  | some v => some v
  | none => b

/-- Layer of an entity: `str(e.get("layer") or e.get("layerName") or "").upper()`. -/
def entLayer (e : Entity) : String :=
  strUpper ((orS e.layer e.layerName).getD "")

/-- Substring containment, Python's `sub in s` on strings. -/
def strContains (s sub : String) : Bool := chSub sub.data s.data

/-! ## geometry.py -/

/-- Points of a vertex list that carry numeric `x` and `y` (others are skipped). -/
def vertsPoints (verts : List Vertex) : List Point :=
  verts.filterMap fun v =>
    match v.x, v.y with
    | some a, some b => some (a, b)
    | _, _ => none

/-- Coordinate points of a LINE or LWPOLYLINE entity (`extract_points`).
For a LINE the `vertices` array is tried first and the
`startPoint`/`start`/`start_point` and `endPoint`/`end`/`end_point` dicts are
the fallback (a missing coordinate key defaults to 0); for an LWPOLYLINE the
`vertices` array is used; other types give `[]`. -/
def extract_points (e : Entity) : List Point :=
  if e.type = some "LINE" then
    let viaVerts : Option (List Point) :=
      match e.vertices with
      | some verts =>
        if verts.length ≥ 2 then
          let pts := vertsPoints verts
          if pts.length ≥ 2 then some pts else none
        else none
      | none => none
    match viaVerts with
    | some pts => pts
    | none =>
      match orV e.startPoint (orV e.start e.start_point),
            orV e.endPoint (orV e.stop e.end_point) with
      | some sp, some ep =>
        [(sp.x.getD 0, sp.y.getD 0), (ep.x.getD 0, ep.y.getD 0)]
      | _, _ => []
  else if e.type = some "LWPOLYLINE" then
    match e.vertices with
    | some verts => vertsPoints verts
    | none => []
  else []

/-- All points inside the world bbox (`points_inside_bbox`). -/
def points_inside_bbox (points : List Point) (bbox : Bbox) : Bool :=
  points.all fun p =>
    ¬(p.1 < bbox.xmin ∨ p.1 > bbox.xmax ∨ p.2 < bbox.ymin ∨ p.2 > bbox.ymax)

/-- Maximum of a rational list relative to a seed (helper for `axis_orientation`). -/
def foldMax (a : ℚ) (l : List ℚ) : ℚ := l.foldl max a

/-- Minimum of a rational list relative to a seed. -/
def foldMin (a : ℚ) (l : List ℚ) : ℚ := l.foldl min a

/-- Axis classification of a point list (`axis_orientation`): constant x within
`eps` gives `("Y_AXIS", mean x)`, constant y gives `("X_AXIS", mean y)`,
otherwise `none`. -/
def axis_orientation (points : List Point) (eps : ℚ) : Option (String × ℚ) :=
  match points with
  | [] => none
  | p :: rest =>
    let xs := (p :: rest).map Prod.fst
    let ys := (p :: rest).map Prod.snd
    if foldMax p.1 (rest.map Prod.fst) - foldMin p.1 (rest.map Prod.fst) < eps then
      some ("Y_AXIS", xs.sum / (xs.length : ℚ))
    else if foldMax p.2 (rest.map Prod.snd) - foldMin p.2 (rest.map Prod.snd) < eps then
      some ("X_AXIS", ys.sum / (ys.length : ℚ))
    else none

/-- Local bounding box of a block definition's entities
(`block_bbox_from_entities`): envelope of all numeric vertex coordinates. -/
def block_bbox_from_entities (blockEntities : List Entity) : Option LBbox :=
  let pts : List Point := blockEntities.foldr
    (fun e acc => (match e.vertices with | some vs => vertsPoints vs | none => []) ++ acc) []
  match pts with
  | [] => none
  | p :: rest =>
    some { min_x := foldMin p.1 (rest.map Prod.fst), min_y := foldMin p.2 (rest.map Prod.snd),
           max_x := foldMax p.1 (rest.map Prod.fst), max_y := foldMax p.2 (rest.map Prod.snd) }

/-- World bbox of a local bbox under an INSERT's transform (`transform_bbox`):
scale, rotate (degrees), translate all four corners and take the envelope.
Translation comes from the `position` dict when present, else the `x`/`y` keys;
a falsy scale (missing or 0) defaults to 1. -/
def transform_bbox (bbox : LBbox) (insert : Entity) : Bbox :=
  let tx : ℚ := match insert.position with | some p => p.x.getD 0 | none => insert.x.getD 0
  let ty : ℚ := match insert.position with | some p => p.y.getD 0 | none => insert.y.getD 0
  let sx : ℚ := match insert.xScale with | some s => if s = 0 then 1 else s | none => 1
  let sy : ℚ := match insert.yScale with | some s => if s = 0 then 1 else s | none => 1
  let rot : ℚ := match insert.rotation with | some r => r | none => 0
  let c := cosDeg rot
  let s := sinDeg rot
  let corners : List Point :=
    [(bbox.min_x, bbox.min_y), (bbox.max_x, bbox.min_y),
     (bbox.max_x, bbox.max_y), (bbox.min_x, bbox.max_y)]
  let world := corners.map fun q =>
    let xs := q.1 * sx
    let ys := q.2 * sy
    (xs * c - ys * s + tx, xs * s + ys * c + ty)
  match world with
  | [] => { xmin := 0, ymin := 0, xmax := 0, ymax := 0 }
  | p :: rest =>
    { xmin := foldMin p.1 (rest.map Prod.fst), ymin := foldMin p.2 (rest.map Prod.snd),
      xmax := foldMax p.1 (rest.map Prod.fst), ymax := foldMax p.2 (rest.map Prod.snd) }

/-- Size descriptor of a detected column. -/
inductive Size where
  | circle (radius diameter : ℚ)
  | rect (width height : ℚ)
deriving DecidableEq, Repr

/-- Center point and size of a CIRCLE or (LW)POLYLINE entity
(`entity_center_and_size`). -/
def entity_center_and_size (e : Entity) : Option (ℚ × ℚ × Size) :=
  if e.type = some "CIRCLE" then
    match orV e.center e.position with
    | some c =>
      match e.radius with
      | some r => some (c.x.getD 0, c.y.getD 0, Size.circle r (r * 2))
      | none => none
    | none => none
  else if e.type = some "LWPOLYLINE" ∨ e.type = some "POLYLINE" then
    match e.vertices with
    | some verts =>
      match vertsPoints verts with
      | [] => none
      | p :: rest =>
        let minx := foldMin p.1 (rest.map Prod.fst)
        let maxx := foldMax p.1 (rest.map Prod.fst)
        let miny := foldMin p.2 (rest.map Prod.snd)
        let maxy := foldMax p.2 (rest.map Prod.snd)
        some ((minx + maxx) / 2, (miny + maxy) / 2, Size.rect (maxx - minx) (maxy - miny))
    | none => none
  else none

/-- Center matches some intersection within `eps` in both coordinates
(`match_intersection`). -/
def match_intersection (center : Point) (intersections : List Point) (eps : ℚ) : Bool :=
  intersections.any fun q => |center.1 - q.1| ≤ eps ∧ |center.2 - q.2| ≤ eps

/-- Twice the signed shoelace sum of a polygon (helper for area and centroid). -/
def shoelace (vertices : List Point) : ℚ :=
  let n := vertices.length
  ((List.range n).map fun i =>
    let p := vertices.getD i (0, 0)
    let q := vertices.getD ((i + 1) % n) (0, 0)
    p.1 * q.2 - q.1 * p.2).sum

/-- Absolute polygon area by the shoelace formula (`polygon_area`);
fewer than 3 vertices give 0. -/
def polygon_area (vertices : List Point) : ℚ :=
  if vertices.length < 3 then 0 else |shoelace vertices| / 2

/-- Ray-casting point-in-polygon test (`point_in_polygon`). -/
def point_in_polygon (point : Point) (vertices : List Point) : Bool :=
  let n := vertices.length
  if n < 3 then false
  else
    (List.range n).foldl
      (fun inside i =>
        let vi := vertices.getD i (0, 0)
        let vj := vertices.getD ((i + n - 1) % n) (0, 0)
        if (decide (vi.2 > point.2) ≠ decide (vj.2 > point.2)) ∧
           point.1 < (vj.1 - vi.1) * (point.2 - vi.2) / (vj.2 - vi.2) + vi.1
        then !inside else inside)
      false

/-- Signed-area-weighted polygon centroid (`polygon_centroid`), with the
arithmetic-mean fallback when the accumulated signed sum is below `1e-9`;
fewer than 3 vertices give `none`. -/
def polygon_centroid (vertices : List Point) : Option Point :=
  let n := vertices.length
  if n < 3 then none
  else
    let sa := shoelace vertices
    let cx := ((List.range n).map fun i =>
      let p := vertices.getD i (0, 0)
      let q := vertices.getD ((i + 1) % n) (0, 0)
      (p.1 + q.1) * (p.1 * q.2 - q.1 * p.2)).sum
    let cy := ((List.range n).map fun i =>
      let p := vertices.getD i (0, 0)
      let q := vertices.getD ((i + 1) % n) (0, 0)
      (p.2 + q.2) * (p.1 * q.2 - q.1 * p.2)).sum
    if |sa| < 1/1000000000 then
      some ((vertices.map Prod.fst).sum / (n : ℚ), (vertices.map Prod.snd).sum / (n : ℚ))
    else
      some (cx / (6 * (sa / 2)), cy / (6 * (sa / 2)))

/-- Squared euclidean distance (used to translate every comparison the source
makes on `distance` values into an exact sqrt-free comparison). -/
def distSq (p q : Point) : ℚ :=
  (q.1 - p.1)^2 + (q.2 - p.2)^2

/-- Euclidean distance via the rational square-root stand-in (`distance`),
used only where the source stores a distance as a value. -/
def distance (p q : Point) : ℚ := ratSqrt (distSq p q)

/-- Textual rendering of a coordinate for WKT strings.  The source prints
Python floats; the model prints the exact rational.  No theorem depends on the
exact text, only on whether a geometry string is present. -/
def coordStr (q : ℚ) : String := toString q

/-- WKT `POLYGON((...))` of a vertex ring (`vertices_to_wkt_polygon`),
closing the ring when needed; fewer than 3 vertices give `none`. -/
def vertices_to_wkt_polygon (vertices : List Point) : Option String :=
  if vertices.length < 3 then none
  else
    let closed :=
      if vertices.head? = vertices.getLast? then vertices else vertices ++ vertices.take 1
    let coords := String.intercalate ", " (closed.map fun p => coordStr p.1 ++ " " ++ coordStr p.2)
    some ("POLYGON((" ++ coords ++ "))")

/-- WKT `LINESTRING(...)` of a vertex list (`vertices_to_wkt_linestring`). -/
def vertices_to_wkt_linestring (vertices : List Point) : Option String :=
  if vertices.length < 2 then none
  else
    some ("LINESTRING(" ++
      String.intercalate ", " (vertices.map fun p => coordStr p.1 ++ " " ++ coordStr p.2) ++ ")")

/-- WKT `POINT(x y)` of a point (`point_to_wkt`). -/
def point_to_wkt (p : Point) : String :=
  "POINT(" ++ coordStr p.1 ++ " " ++ coordStr p.2 ++ ")"

/-- Modelled from the spec: `points_to_wkt_multipoint`, a WKT geometry emitter
the axis detector imports from the geometry module but whose definition is not
among the provided sources.  Per the spec's geometry-utilities and output
contract (WKT strings suitable for a spatial store), it renders a point list
as a WKT `MULTIPOINT`. -/
def points_to_wkt_multipoint (points : List Point) : String :=
  "MULTIPOINT(" ++
    String.intercalate ", " (points.map fun p => coordStr p.1 ++ " " ++ coordStr p.2) ++ ")"

/-- Modelled from the spec: `bbox_to_wkt_polygon`, a WKT geometry emitter the
axis detector imports from the geometry module but whose definition is not
among the provided sources.  It renders a world bbox as the closed WKT
`POLYGON` ring of its four corners. -/
def bbox_to_wkt_polygon (bbox : Bbox) : String :=
  (vertices_to_wkt_polygon
    [(bbox.xmin, bbox.ymin), (bbox.xmax, bbox.ymin),
     (bbox.xmax, bbox.ymax), (bbox.xmin, bbox.ymax)]).getD ""

/-! ## Semantic records -/

/-- Rounded coordinate pair as stored in record properties. -/
structure PtR where
  x : ℚ
  y : ℚ
deriving DecidableEq, Repr

/-- One labeled grid-axis entry of an axis summary. -/
structure AxisItem where
  handle : Option String
  layer : Option String
  coord : ℚ
  label : String
deriving DecidableEq, Repr

/-- Unlabeled grid-axis entry as first collected by the axis detector. -/
structure AxisPre where
  handle : Option String
  layer : Option String
  coord : ℚ
deriving DecidableEq, Repr

/-- Properties of a `border` record. -/
structure BorderProps where
  block_name : String
  insert_handle : Option String
  bbox_local : LBbox
  bbox_world : Bbox
deriving DecidableEq, Repr

/-- Properties of an `axis_summary` record. -/
structure AxisSummaryProps where
  border_index : ℕ
  border_handle : Option String
  x_axes : List AxisItem
  y_axes : List AxisItem
  x_spacing : List ℚ
  y_spacing : List ℚ
  bbox : Bbox
  intersections : List Point
deriving DecidableEq, Repr

/-- Properties of a `concrete_column` record. -/
structure ColumnProps where
  file_id : String
  border_index : ℕ
  center : PtR
  size : Size
  column_type : String
deriving DecidableEq, Repr

/-- Properties of a wall record. -/
structure WallProps where
  wall_index : ℕ
  file_id : String
  handles : List String
  thickness : ℚ
  length : ℚ
  startP : Option PtR
  endP : Option PtR
  direction : PtR
deriving DecidableEq, Repr

/-- Properties of a `room` record. -/
structure RoomProps where
  room_index : ℕ
  name : Option String
  area : ℚ
  area_sqm : ℚ
  centroid : Option PtR
  bbox : Bbox
  vertices : List PtR
  vertex_count : ℕ
  texts_inside : List String
deriving DecidableEq, Repr

/-- Wall reference attached to a door record. -/
structure WallInfo where
  wall_index : Option ℕ
  wall_type : String
deriving DecidableEq, Repr

/-- Properties of a `door` record. -/
structure DoorProps where
  door_index : ℕ
  center : PtR
  width : ℚ
  entity_type : Option String
  entity_handle : Option String
  wall : Option WallInfo
  connects_rooms : List ℕ
  connects_room_names : List (Option String)
deriving DecidableEq, Repr

/-- Properties of the `room_connectivity` summary record. -/
structure ConnectivityProps where
  edges : List (ℕ × ℕ)
  room_count : ℕ
  door_count : ℕ
deriving DecidableEq, Repr

/-- Kind-specific property bag of a semantic record. -/
inductive RProps where
  | basic (ent : Entity)
  | border (p : BorderProps)
  | axisSummary (p : AxisSummaryProps)
  | column (p : ColumnProps)
  | wall (p : WallProps)
  | room (p : RoomProps)
  | door (p : DoorProps)
  | connectivity (p : ConnectivityProps)
deriving DecidableEq, Repr

/-- One semantic record: the dicts appended to the output collection.
`geom_wkt` is `none` when the source dict has no such key. -/
structure Record where
  file_id : String
  kind : String
  confidence : Option ℚ
  source_rule : String
  geom_wkt : Option String
  properties : RProps
deriving DecidableEq, Repr

/-- World bbox probed from a record's properties
(`r.get("properties", {}).get("bbox_world")`). -/
def Record.bboxWorld? (r : Record) : Option Bbox :=
  match r.properties with
  | .border p => some p.bbox_world
  | _ => none

/-- Insert handle probed from a record's properties. -/
def Record.insertHandle? (r : Record) : Option String :=
  match r.properties with
  | .border p => p.insert_handle
  | _ => none

/-! ## rules.py -/

/-- A classification rule dict; `matchMode` models the optional `"match"` key. -/
structure Rule where
  kind : String
  keys : List String
  source : String
  matchMode : Option String
deriving DecidableEq, Repr

/-- The module-level default classification rules (`DEFAULT_RULES`). -/
def DEFAULT_RULES : List Rule :=
  [⟨"border", ["BORD", "TITLE", "FORM"], "layer", none⟩,
   ⟨"dimension", ["DIM"], "layer", none⟩,
   ⟨"symbol", ["SYM"], "layer", none⟩,
   ⟨"text", ["TXT", "TEXT"], "layer", none⟩,
   ⟨"axis", ["AXIS", "GRID"], "layer", none⟩,
   ⟨"column", ["COL"], "layer", none⟩,
   ⟨"steel_column", ["STL"], "layer", none⟩,
   ⟨"concrete", ["CON"], "layer", none⟩,
   ⟨"wall", ["WAL"], "layer", none⟩,
   ⟨"door", ["DOOR"], "layer", none⟩,
   ⟨"window", ["WIN"], "layer", none⟩,
   ⟨"stair", ["STR"], "layer", none⟩,
   ⟨"elevator", ["ELV"], "layer", none⟩,
   ⟨"furniture", ["FURN"], "layer", none⟩,
   ⟨"finish", ["FIN"], "layer", none⟩,
   ⟨"block", ["BLOCK"], "type", none⟩]

/-- The fixed selection table (`SELECTION_RULE_MAP`): key ↦ (kind, source). -/
def SELECTION_RULE_MAP : List (String × String × String) :=
  [("basic-border-block", "border", "block"),
   ("basic-dim-layer", "dimension", "layer"),
   ("basic-symbol-layer", "symbol", "layer"),
   ("basic-text-layer", "text", "layer"),
   ("struct-axis-layer", "axis", "layer"),
   ("struct-ccol-layer", "column", "layer"),
   ("struct-scol-layer", "steel_column", "layer"),
   ("struct-cwall-layer", "concrete", "layer"),
   ("non-wall-layer", "wall", "layer"),
   ("non-door-layer", "door", "layer"),
   ("non-window-layer", "window", "layer"),
   ("non-stair-layer", "stair", "layer"),
   ("non-elevator-layer", "elevator", "layer"),
   ("non-furniture-layer", "furniture", "layer"),
   ("non-finish-layer", "finish", "layer")]

/-! ## Selections and blocks -/

/-- The caller's selections map, a Python dict with unique keys modelled as an
insertion-ordered association list; the whole argument may be `None`. -/
abbrev Selections := List (String × List String)

/-- Python `selections.get(key) or []`. -/
def selGet (sels : Selections) (key : String) : List String :=
  match sels.find? (fun kv => kv.1 = key) with
  | some kv => kv.2
  | none => []

/-- Uppercased truthy members of a selection value list, the set
`{str(v).upper() for v in values if v}` (membership is all that is used). -/
def upperTruthy (values : List String) : List String :=
  (values.filter (fun v => v ≠ "")).map strUpper

/-- One block definition (value of the block-library dict). -/
structure BlockDef where
  entities : Option (List Entity)
deriving DecidableEq, Repr

/-- The block library: name ↦ definition, insertion-ordered. -/
abbrev Blocks := List (String × BlockDef)

/-! ## matchers.py -/

/-- Uppercased entity fields probed by the rule matcher. -/
def entType (e : Entity) : String := strUpper (e.type.getD "")

/-- Resolved block-reference name:
`str(e.get("name") or e.get("block") or e.get("block_name") or "").upper()`. -/
def entBlockName (e : Entity) : String :=
  strUpper ((orS e.name (orS e.block e.block_name)).getD "")

/-- One rule applied to the three uppercased fields (`match_rule` loop body):
exact mode tests list membership, any other mode tests substring containment
of any key. -/
def ruleHit (layer dtype bname : String) (r : Rule) : Option (String × String) :=
  let matchType := r.matchMode.getD "contains"
  if r.source = "layer" ∧
      ((matchType = "exact" ∧ layer ∈ r.keys) ∨
       (matchType ≠ "exact" ∧ r.keys.any (fun k => strContains layer k))) then
    some (r.kind, "layer:" ++ layer)
  else if r.source = "type" ∧
      ((matchType = "exact" ∧ dtype ∈ r.keys) ∨
       (matchType ≠ "exact" ∧ r.keys.any (fun k => strContains dtype k))) then
    some (r.kind, "type:" ++ dtype)
  else if r.source = "block" ∧
      ((matchType = "exact" ∧ bname ∈ r.keys) ∨
       (matchType ≠ "exact" ∧ r.keys.any (fun k => strContains bname k))) then
    some (r.kind, "block:" ++ bname)
  else none

/-- First matching rule wins (`match_rule`); `none` models `(None, None)`. -/
def match_rule (e : Entity) (rules : List Rule) : Option (String × String) :=
  let layer := entLayer e
  let dtype := entType e
  let bname := entBlockName e
  rules.foldr (fun r acc => match ruleHit layer dtype bname r with
    | some hit => some hit
    | none => acc) none

/-- Loop body of `rules_from_selections`: one selection entry contributes one
exact-match rule, unless its key is not in the table or its values are empty
or all falsy. -/
def selRuleStep (kv : String × List String) (acc : List Rule) : List Rule :=
  match SELECTION_RULE_MAP.find? (fun e => e.1 = kv.1) with
  | none => acc
  | some (_, kind, source) =>
    if kv.2 = [] then acc
    else
      let keys := (kv.2.filter (fun v => v ≠ "")).map strUpper
      if keys = [] then acc
      else ⟨kind, keys, source, some "exact"⟩ :: acc

/-- Conversion of caller selections to exact-match rules
(`rules_from_selections`): keys absent from `SELECTION_RULE_MAP` and empty or
all-falsy value lists are silently skipped. -/
def rules_from_selections (sels : Option Selections) : List Rule :=
  match sels with
  | none => []
  | some l => if l = [] then [] else l.foldr selRuleStep []

/-! ## builder.py (basic pass) -/

/-- Basic rule-matched records over all entities (`build_semantic_records`);
an entity with no matching rule, or a matched kind that is falsy, is skipped. -/
def build_semantic_records (ents : List Entity) (fid : String) (rules : List Rule) :
    List Record :=
  ents.foldr (fun e acc =>
    match match_rule e rules with
    | some (kind, src) =>
      if kind = "" then acc
      else { file_id := fid, kind := kind, confidence := none, source_rule := src,
             geom_wkt := none, properties := .basic e } :: acc
    | none => acc) []

/-! ## detectors/border.py -/

/-- Border (title-block) records (`build_border_records`): resolve the single
selected block name case-insensitively against the library, compute the local
bbox of its entities, and emit one record per INSERT whose name matches. -/
def build_border_records (fid : String) (blocks : Blocks) (ents : List Entity)
    (sels : Option Selections) : List Record :=
  match sels with
  | none => []
  | some l =>
    if l = [] then []
    else
      match selGet l "basic-border-block" with
      | [] => []
      | blockName :: _ =>
        let blockKey :=
          if (blocks.find? (fun kv => kv.1 = blockName)).isSome then blockName
          else
            match blocks.find? (fun kv => strUpper kv.1 = strUpper blockName) with
            | some kv => kv.1
            | none => blockName
        match blocks.find? (fun kv => kv.1 = blockKey) with
        | none => []
        | some (_, blockDef) =>
          match blockDef.entities with
          | none => []
          | some blockEnts =>
            match block_bbox_from_entities blockEnts with
            | none => []
            | some baseBbox =>
              ents.foldr (fun e acc =>
                if e.type = some "INSERT" ∧ strUpper (e.name.getD "") = strUpper blockName then
                  { file_id := fid, kind := "border", confidence := none,
                    source_rule := "block:" ++ blockKey, geom_wkt := none,
                    properties := .border ⟨blockKey, e.handle, baseBbox,
                                           transform_bbox baseBbox e⟩ } :: acc
                else acc) []

/-! ## detectors/axis.py -/

/-- Classification of one entity as a grid-axis candidate inside a border bbox:
LINE/LWPOLYLINE on a selected axis layer, all points inside the bbox, and a
horizontal or vertical `axis_orientation` with the default epsilon `1e-6`. -/
def axisEntPre (e : Entity) (layersU : List String) (bbox : Bbox) :
    Option (String × AxisPre) :=
  if (e.type = some "LINE" ∨ e.type = some "LWPOLYLINE") ∧ entLayer e ∈ layersU then
    match extract_points e with
    | [] => none
    | p :: rest =>
      if points_inside_bbox (p :: rest) bbox then
        match axis_orientation (p :: rest) (1/1000000) with
        | some (t, coord) => some (t, ⟨e.handle, orS e.layer e.layerName, coord⟩)
        | none => none
      else none
  else none

/-- Axis candidates of all entities, split into horizontal (`X_AXIS`) and
vertical (`Y_AXIS`) lists in entity order (the collection loop, written as
direct recursion over the entity list). -/
def collectAxisPre : List Entity → List String → Bbox → List AxisPre × List AxisPre
  | [], _, _ => ([], [])
  | e :: rest, layersU, bbox =>
    let acc := collectAxisPre rest layersU bbox
    match axisEntPre e layersU bbox with
    | some (t, item) => if t = "X_AXIS" then (item :: acc.1, acc.2) else (acc.1, item :: acc.2)
    | none => acc

/-- Comparison used when sorting axis candidates ascending by coordinate. -/
def axisLE (a b : AxisPre) : Prop := a.coord ≤ b.coord

instance : DecidableRel axisLE := fun a b => inferInstanceAs (Decidable (a.coord ≤ b.coord))

instance : IsTotal AxisPre axisLE := ⟨fun a b => le_total a.coord b.coord⟩

instance : IsTrans AxisPre axisLE := ⟨fun _ _ _ h h' => le_trans h h'⟩

/-- Stable ascending sort by coordinate (`list.sort(key=coord)`). -/
def sortAxes (l : List AxisPre) : List AxisPre := l.insertionSort axisLE

/-- Sequential labeling of sorted axis entries (`label` mutation loop),
starting at index `i`. -/
def labelAxes (pre : String) : ℕ → List AxisPre → List AxisItem
  | _, [] => []
  | i, a :: rest => ⟨a.handle, a.layer, a.coord, pre ++ natToStr i⟩ :: labelAxes pre (i + 1) rest

/-- Consecutive coordinate differences (the spacing arrays). -/
def spacing : List AxisItem → List ℚ
  | a :: b :: rest => (b.coord - a.coord) :: spacing (b :: rest)
  | _ => []

/-- Cartesian product of vertical-axis x coordinates with horizontal-axis y
coordinates (`axis_intersections`). -/
def axis_intersections (x_axes y_axes : List AxisItem) : List Point :=
  (y_axes.map AxisItem.coord).foldr
    (fun a acc => (x_axes.map AxisItem.coord).map (fun b => (a, b)) ++ acc) []

/-- One axis summary record for a border with bbox (loop body of
`build_axis_summary_records`). -/
def mkAxisSummary (fid : String) (ents : List Entity) (layersU : List String)
    (idx : ℕ) (bh : Option String) (bbox : Bbox) : Record :=
  let pre := collectAxisPre ents layersU bbox
  let xAxes := labelAxes "Y" 1 (sortAxes pre.1)
  let yAxes := labelAxes "X" 1 (sortAxes pre.2)
  let inters := axis_intersections xAxes yAxes
  let geom := if inters = [] then bbox_to_wkt_polygon bbox else points_to_wkt_multipoint inters
  { file_id := fid, kind := "axis_summary", confidence := none,
    source_rule := "layer:struct-axis-layer", geom_wkt := some geom,
    properties := .axisSummary ⟨idx, bh, xAxes, yAxes, spacing xAxes, spacing yAxes,
                                bbox, inters⟩ }

/-- Enumerated loop over the border list (`enumerate(borders, start=1)`):
a border without a world bbox is skipped but still counted. -/
def axisSummAux (fid : String) (ents : List Entity) (layersU : List String) :
    ℕ → List Record → List Record
  | _, [] => []
  | idx, b :: rest =>
    match b.bboxWorld? with
    | none => axisSummAux fid ents layersU (idx + 1) rest
    | some bbox =>
      mkAxisSummary fid ents layersU idx b.insertHandle? bbox ::
        axisSummAux fid ents layersU (idx + 1) rest

/-- Grid-axis detection (`build_axis_summary_records`): for each border with a
world bbox, collect axis lines inside it, sort, label, and summarize. -/
def build_axis_summary_records (fid : String) (borders : List Record)
    (ents : List Entity) (sels : Option Selections) : List Record :=
  match sels with
  | none => []
  | some l =>
    if l = [] then []
    else
      let layersU := upperTruthy (selGet l "struct-axis-layer")
      if layersU = [] then [] else axisSummAux fid ents layersU 1 borders

/-! ## detectors/column.py -/

/-- Column candidate as accumulated before type labeling. -/
structure ColCand where
  file_id : String
  border_index : ℕ
  center : PtR
  size : Size
deriving DecidableEq, Repr

/-- Rounded size key used to group columns (`size_key`): rounded radius for a
circle, rounded (max-dimension, min-dimension) pair for a rectangle. -/
inductive SizeKey where
  | circle (r : ℚ)
  | rect (a b : ℚ)
deriving DecidableEq, Repr

/-- Size key of a candidate. -/
def sizeKeyOf (c : ColCand) : SizeKey :=
  match c.size with
  | .circle r _ => .circle (round2 r)
  | .rect w h => .rect (round2 (max w h)) (round2 (min w h))

/-- Python tuple order on size keys (`("circle", r)` sorts before
`("rect", a, b)` because the tag strings compare that way). -/
def keyLE (a b : SizeKey) : Prop :=
  match a, b with
  | .circle r, .circle s => r ≤ s
  | .circle _, .rect _ _ => True
  | .rect _ _, .circle _ => False
  | .rect a1 b1, .rect a2 b2 => a1 < a2 ∨ (a1 = a2 ∧ b1 ≤ b2)

instance : DecidableRel keyLE := fun a b => by
  cases a <;> cases b <;> simp only [keyLE] <;> infer_instance

instance : IsTotal SizeKey keyLE where
  total a b := by
    cases a with
    | circle r =>
      cases b with
      | circle s => exact (le_total r s).imp id id
      | rect a2 b2 => exact Or.inl trivial
    | rect a1 b1 =>
      cases b with
      | circle s => exact Or.inr trivial
      | rect a2 b2 =>
        rcases lt_trichotomy a1 a2 with h | h | h
        · exact Or.inl (Or.inl h)
        · rcases le_total b1 b2 with h' | h'
          · exact Or.inl (Or.inr ⟨h, h'⟩)
          · exact Or.inr (Or.inr ⟨h.symm, h'⟩)
        · exact Or.inr (Or.inl h)

instance : IsTrans SizeKey keyLE where
  trans a b c hab hbc := by
    cases a <;> cases b <;> cases c <;>
      simp only [keyLE] at hab hbc ⊢ <;> try trivial
    · exact le_trans hab hbc
    · rcases hab with h | ⟨he, h⟩ <;> rcases hbc with h' | ⟨he', h'⟩
      · exact Or.inl (lt_trans h h')
      · exact Or.inl (he' ▸ h)
      · exact Or.inl (he ▸ h')
      · exact Or.inr ⟨he.trans he', le_trans h h'⟩

instance : IsAntisymm SizeKey keyLE where
  antisymm a b hab hba := by
    cases a <;> cases b <;> simp only [keyLE] at hab hba
    · exact congrArg SizeKey.circle (le_antisymm hab hba)
    · rcases hab with h | ⟨he, h⟩ <;> rcases hba with h' | ⟨he', h'⟩
      · exact absurd (lt_trans h h') (lt_irrefl _)
      · exact absurd (he' ▸ h) (lt_irrefl _)
      · exact absurd (he ▸ h') (lt_irrefl _)
      · rw [he, le_antisymm h h']

/-- Ascending list of the distinct size keys (`sorted(unique.keys())`; the
source deduplicates via dict keys first, which only affects an order the sort
then discards). -/
def sortedSizeKeys (cols : List ColCand) : List SizeKey :=
  ((cols.map sizeKeyOf).dedup).insertionSort keyLE

/-- Type label of one candidate (`type_map[size_key(col)]`): `C(i+1)` where `i`
is the position of its size key in the ascending distinct-key list. -/
def typeLabel (cols : List ColCand) (c : ColCand) : String :=
  "C" ++ natToStr ((sortedSizeKeys cols).indexOf (sizeKeyOf c) + 1)

/-- Column type-label assignment (`assign_column_types`); the source mutates
each dict in place, the model pairs each candidate with its label. -/
def assign_column_types (cols : List ColCand) : List (ColCand × String) :=
  cols.map fun c => (c, typeLabel cols c)

/-- Axis-summary properties probed from a record. -/
def Record.axisProps? (r : Record) : Option AxisSummaryProps :=
  match r.properties with
  | .axisSummary p => some p
  | _ => none

/-- Column candidates contributed by one axis summary (inner entity loop of
`build_column_records`). -/
def columnCandsOfSummary (fid : String) (ents : List Entity) (layersU : List String)
    (eps : ℚ) (r : Record) : List ColCand :=
  match r.axisProps? with
  | none => []
  | some p =>
    if p.intersections = [] then []
    else
      ents.foldr (fun e acc =>
        if entLayer e ∈ layersU then
          match entity_center_and_size e with
          | some (cx, cy, size) =>
            if points_inside_bbox [(cx, cy)] p.bbox ∧
               match_intersection (cx, cy) p.intersections eps then
              ⟨fid, p.border_index, ⟨cx, cy⟩, size⟩ :: acc
            else acc
          | none => acc
        else acc) []

/-- Column detection at grid intersections (`build_column_records`). -/
def build_column_records (fid : String) (summaries : List Record)
    (ents : List Entity) (sels : Option Selections) (eps : ℚ) : List Record :=
  match sels with
  | none => []
  | some l =>
    if l = [] then []
    else
      let layersU := upperTruthy (selGet l "struct-ccol-layer")
      if layersU = [] then []
      else
        let cands := summaries.foldr
          (fun s acc => columnCandsOfSummary fid ents layersU eps s ++ acc) []
        if cands = [] then []
        else
          (assign_column_types cands).map fun cl =>
            { file_id := fid, kind := "concrete_column", confidence := none,
              source_rule := "layer:struct-ccol-layer", geom_wkt := none,
              properties := .column ⟨cl.1.file_id, cl.1.border_index, cl.1.center,
                                     cl.1.size, cl.2⟩ }

/-! ## detectors/wall.py

The source compares square roots (`_line_direction` normalization,
`_perpendicular_distance`, projection lengths); every such comparison is
translated into the equivalent exact comparison between squares, and
projections are taken against the unnormalized direction vector (a positive
rescaling of the source's unit-vector projections that cancels in every ratio
and ordering).  Square roots appear only in stored output values, via
`ratSqrt`. -/

/-- One extracted line segment with its contributing handle
(the `(start, end, handle)` tuples of `_extract_line_data`). -/
structure Seg where
  a : Point
  b : Point
  h : String
deriving DecidableEq, Repr

/-- Unnormalized direction vector of a segment. -/
def segD (s : Seg) : Point := (s.b.1 - s.a.1, s.b.2 - s.a.2)

/-- Squared length of a segment. -/
def lenSq (s : Seg) : ℚ := (s.b.1 - s.a.1)^2 + (s.b.2 - s.a.2)^2

/-- Zero direction vector (`_line_direction` returning `(0, 0)`):
length below `1e-9`, i.e. squared length below `1e-18`. -/
def segDegenerate (s : Seg) : Bool := lenSq s < 1/10^18

/-- Parallelism within tolerance (`_are_parallel` with `angle_tol = 0.05`):
`|u₁·u₂| > 0.95` on unit vectors, squared to
`(d₁·d₂)² > 0.9025·|d₁|²·|d₂|²`. -/
def are_parallel (s1 s2 : Seg) : Bool :=
  let dot := (s1.b.1 - s1.a.1) * (s2.b.1 - s2.a.1) + (s1.b.2 - s1.a.2) * (s2.b.2 - s2.a.2)
  dot^2 > (361/400) * (lenSq s1 * lenSq s2)

/-- Squared perpendicular distance between the two supporting infinite lines
(`_perpendicular_distance` squared); `none` models the infinite distance
returned for a degenerate first segment. -/
def perpDistSq (s1 s2 : Seg) : Option ℚ :=
  if lenSq s1 < 1/10^18 then none
  else
    let cross := (s1.b.1 - s1.a.1) * (s2.a.2 - s1.a.2) - (s1.b.2 - s1.a.2) * (s2.a.1 - s1.a.1)
    some (cross^2 / lenSq s1)

/-- Thickness filter of the pairing loop
(`if dist > max_thickness or dist < 1.0: continue`), in squared form:
the pair passes iff the distance lies in `[1.0, max_thickness]`. -/
def distOk (s1 s2 : Seg) (maxT : ℚ) : Bool :=
  match perpDistSq s1 s2 with
  | none => false
  | some dsq => 0 ≤ maxT ∧ dsq ≤ maxT^2 ∧ 1 ≤ dsq

/-- Projected-overlap test (`_lines_overlap` with `min_overlap_ratio = 0.3`),
with projections against the unnormalized direction of the first segment. -/
def lines_overlap (s1 s2 : Seg) : Bool :=
  if lenSq s1 < 1/10^18 then false
  else
    let d := segD s1
    let t1a := s1.a.1 * d.1 + s1.a.2 * d.2
    let t1b := s1.b.1 * d.1 + s1.b.2 * d.2
    let t2a := s2.a.1 * d.1 + s2.a.2 * d.2
    let t2b := s2.b.1 * d.1 + s2.b.2 * d.2
    let t1s := min t1a t1b
    let t1e := max t1a t1b
    let t2s := min t2a t2b
    let t2e := max t2a t2b
    let ov := max 0 (min t1e t2e - max t1s t2s)
    let shorter := min (t1e - t1s) (t2e - t2s)
    if shorter^2 < lenSq s1 / 10^18 then false
    else ov / shorter ≥ 3/10

/-- Geometry of an accepted wall pair. -/
structure WallGeom where
  thickness : ℚ
  length : ℚ
  startP : PtR
  endP : PtR
  direction : PtR
deriving DecidableEq, Repr

/-- Point on a (possibly swapped) segment at projection parameter `t`
(`point_at_t`); the degeneracy guard `|t_end - t_start| < 1e-9` is squared
against the squared direction length. -/
def pointAtT (L2 : ℚ) (ps pe : Point) (ts te t : ℚ) : Point :=
  if (te - ts)^2 < L2 / 10^18 then ps
  else
    let r := (t - ts) / (te - ts)
    (ps.1 + r * (pe.1 - ps.1), ps.2 + r * (pe.2 - ps.2))

/-- Wall geometry of a parallel pair (`_compute_wall_geometry`): overlap region
in projection units, boundary points on both lines, averaged into the
centerline, thickness and length divided by the real segment length. -/
def compute_wall_geometry (s1 s2 : Seg) : Option WallGeom :=
  let L2 := lenSq s1
  if L2 < 1/10^18 then none
  else
    let d := segD s1
    let t1a := s1.a.1 * d.1 + s1.a.2 * d.2
    let t1b := s1.b.1 * d.1 + s1.b.2 * d.2
    let t2a := s2.a.1 * d.1 + s2.a.2 * d.2
    let t2b := s2.b.1 * d.1 + s2.b.2 * d.2
    let sw1 := if t1a > t1b then (t1b, t1a, s1.b, s1.a) else (t1a, t1b, s1.a, s1.b)
    let sw2 := if t2a > t2b then (t2b, t2a, s2.b, s2.a) else (t2a, t2b, s2.a, s2.b)
    let ws := max sw1.1 sw2.1
    let we := min sw1.2.1 sw2.2.1
    if we - ws ≤ 0 then none
    else
      let p1S := pointAtT L2 sw1.2.2.1 sw1.2.2.2 sw1.1 sw1.2.1 ws
      let p1E := pointAtT L2 sw1.2.2.1 sw1.2.2.2 sw1.1 sw1.2.1 we
      let p2S := pointAtT L2 sw2.2.2.1 sw2.2.2.2 sw2.1 sw2.2.1 ws
      let p2E := pointAtT L2 sw2.2.2.1 sw2.2.2.2 sw2.1 sw2.2.1 we
      let L := ratSqrt L2
      let cross := |d.1 * (s2.a.2 - s1.a.2) - d.2 * (s2.a.1 - s1.a.1)|
      some { thickness := round2 (cross / L),
             length := round2 ((we - ws) / L),
             startP := ⟨round2 ((p1S.1 + p2S.1) / 2), round2 ((p1S.2 + p2S.2) / 2)⟩,
             endP := ⟨round2 ((p1E.1 + p2E.1) / 2), round2 ((p1E.2 + p2E.2) / 2)⟩,
             direction := ⟨round4 (d.1 / L), round4 (d.2 / L)⟩ }

/-- All guards of the inner pairing loop applied to a candidate pair, in the
source's order: degenerate partner, parallelism, thickness band, overlap,
geometry computation and the minimum-length check on the rounded length. -/
def wallPairGeom (s1 s2 : Seg) (maxT minL : ℚ) : Option WallGeom :=
  if segDegenerate s2 then none
  else if ¬ are_parallel s1 s2 then none
  else if ¬ distOk s1 s2 maxT then none
  else if ¬ lines_overlap s1 s2 then none
  else
    match compute_wall_geometry s1 s2 with
    | none => none
    | some g => if g.length < minL then none else some g

/-- An accepted wall pairing, instrumented with the indices and segments it was
built from; the emitted wall dict is its projection `wallRecordOf`. -/
structure WallRaw where
  i : ℕ
  j : ℕ
  s1 : Seg
  s2 : Seg
  geom : WallGeom
deriving DecidableEq, Repr

/-- Inner loop of `find_walls`: first not-yet-used later segment that passes
all pair guards. -/
def findPartner (s1 : Seg) (maxT minL : ℚ) (used : List ℕ) :
    List (ℕ × Seg) → Option (ℕ × Seg × WallGeom)
  | [] => none
  | (j, s2) :: rest =>
    if j ∈ used then findPartner s1 maxT minL used rest
    else
      match wallPairGeom s1 s2 maxT minL with
      | some g => some (j, s2, g)
      | none => findPartner s1 maxT minL used rest

/-- Outer loop of `find_walls`: greedy first-match pairing over indexed
segments, marking both members of an accepted pair as used. -/
def findWallsAux (maxT minL : ℚ) : List (ℕ × Seg) → List ℕ → List WallRaw
  | [], _ => []
  | (i, s1) :: rest, used =>
    if i ∈ used then findWallsAux maxT minL rest used
    else if segDegenerate s1 then findWallsAux maxT minL rest used
    else
      match findPartner s1 maxT minL used rest with
      | some (j, s2, g) => ⟨i, j, s1, s2, g⟩ :: findWallsAux maxT minL rest (j :: i :: used)
      | none => findWallsAux maxT minL rest used

/-- Greedy wall pairing over one layer group (`find_walls`). -/
def findWalls (segs : List Seg) (maxT minL : ℚ) : List WallRaw :=
  findWallsAux maxT minL segs.enum []

/-- Consecutive-vertex segments of a polyline with suffixed handles. -/
def consecSegs (handle : String) : ℕ → List Point → List Seg
  | i, p :: q :: rest => ⟨p, q, handle ++ "_" ++ natToStr i⟩ :: consecSegs handle (i + 1) (q :: rest)
  | _, _ => []

/-- Line segments of a LINE or LWPOLYLINE entity (`_extract_line_data`). -/
def extract_line_data (e : Entity) : List Seg :=
  let pts := extract_points e
  if pts.length < 2 then []
  else
    let h := e.handle.getD ""
    if e.type = some "LINE" then
      match pts with
      | p :: q :: _ => [⟨p, q, h⟩]
      | _ => []
    else if e.type = some "LWPOLYLINE" then consecSegs h 0 pts
    else []

/-- Bbox pre-filter of the segment-collection loop: an entity is skipped when a
bbox is available, it has extractable points, and they are not all inside. -/
def wallEntSkip (bbox : Option Bbox) (e : Entity) : Bool :=
  match bbox with
  | some b =>
    let pts := extract_points e
    pts ≠ [] ∧ ¬ points_inside_bbox pts b
  | none => false

/-- Loop body of the segment collection of `build_wall_records`. -/
def wallCollectStep (bbox : Option Bbox) (structU nonU : List String) (e : Entity)
    (acc : List Seg × List Seg) : List Seg × List Seg :=
  if (e.type = some "LINE" ∨ e.type = some "LWPOLYLINE") ∧ ¬ wallEntSkip bbox e then
    let layer := entLayer e
    if layer ∈ structU then (extract_line_data e ++ acc.1, acc.2)
    else if layer ∈ nonU then (acc.1, extract_line_data e ++ acc.2)
    else acc
  else acc

/-- Segment collection of `build_wall_records`: LINE/LWPOLYLINE entities that
survive the bbox pre-filter, dispatched by layer into the structural and
non-structural groups. -/
def collectWallSegs (bbox : Option Bbox) (structU nonU : List String)
    (ents : List Entity) : List Seg × List Seg :=
  ents.foldr (wallCollectStep bbox structU nonU) ([], [])

/-- Semantic record of one accepted wall pairing (record-conversion loop of
`build_wall_records`). -/
def wallRecordOf (fid : String) (idx : ℕ) (wt : String) (w : WallRaw) : Record :=
  { file_id := fid,
    kind := if wt = "structural" then "structural_wall" else "partition_wall",
    confidence := none,
    source_rule :=
      if wt = "structural" then "layer:struct-cwall-layer" else "layer:non-wall-layer",
    geom_wkt := none,
    properties := .wall ⟨idx, fid, [w.s1.h, w.s2.h], w.geom.thickness, w.geom.length,
                         some w.geom.startP, some w.geom.endP, w.geom.direction⟩ }

/-- First border's world bbox, if any (`borders[0]...bbox_world`). -/
def wallBboxOf (borders : List Record) : Option Bbox :=
  match borders with
  | [] => none
  | b :: _ => b.bboxWorld?

/-- Wall detection (`build_wall_records`): collect segments per layer group,
pair greedily (structural group first), then number and convert to records. -/
def build_wall_records (fid : String) (borders : List Record) (ents : List Entity)
    (sels : Option Selections) (maxT minL : ℚ) : List Record :=
  match sels with
  | none => []
  | some l =>
    if l = [] then []
    else
      let structU := upperTruthy (selGet l "struct-cwall-layer")
      let nonU := upperTruthy (selGet l "non-wall-layer")
      if structU = [] ∧ nonU = [] then []
      else
        let segs := collectWallSegs (wallBboxOf borders) structU nonU ents
        let raws : List (String × WallRaw) :=
          (findWalls segs.1 maxT minL).map (fun w => ("structural", w)) ++
            (findWalls segs.2 maxT minL).map (fun w => ("non_structural", w))
        raws.enum.map fun iw => wallRecordOf fid (iw.1 + 1) iw.2.1 iw.2.2

/-! ## detectors/room.py -/

/-- Wall properties probed from a record. -/
def Record.wallProps? (r : Record) : Option WallProps :=
  match r.properties with
  | .wall p => some p
  | _ => none

/-- Endpoint-merge test (`distance(p, q) <= tolerance`), in exact squared form. -/
def clusterNear (p q : Point) (tol : ℚ) : Bool :=
  0 ≤ tol ∧ distSq p q ≤ tol^2

/-- Rounding of a merged endpoint (`_round_point` with precision 1.0). -/
def round_point (p : Point) : Point :=
  ((roundHalfEven p.1 : ℤ), (roundHalfEven p.2 : ℤ))

/-- Endpoint list of the wall records: centerline start and end of every wall
carrying both, tagged with the wall index and a start flag. -/
def wallEndpoints (walls : List Record) : List (Point × ℕ × Bool) :=
  walls.enum.foldr (fun iw acc =>
    match iw.2.wallProps? with
    | some p =>
      match p.startP, p.endP with
      | some s, some e => ((s.x, s.y), iw.1, true) :: ((e.x, e.y), iw.1, false) :: acc
      | _, _ => acc
    | none => acc) []

/-- Greedy clustering of `_build_wall_graph` with explicit structural fuel
(the list length strictly drops at every step, so fuel `length` is never
exhausted). -/
def mergeClustersF (tol : ℚ) : ℕ → List (ℕ × Point) → List (List (ℕ × Point))
  | _, [] => []
  | 0, _ :: _ => []
  | fuel + 1, (i, p) :: rest =>
    ((i, p) :: rest.filter (fun jp => clusterNear p jp.2 tol)) ::
      mergeClustersF tol fuel (rest.filter (fun jp => ¬ clusterNear p jp.2 tol))

/-- Greedy clustering of `_build_wall_graph`: the first unprocessed endpoint
absorbs every later unprocessed endpoint within tolerance of it. -/
def mergeClusters (tol : ℚ) (l : List (ℕ × Point)) : List (List (ℕ × Point)) :=
  mergeClustersF tol l.length l

/-- Average position of a cluster, rounded to 1 unit. -/
def clusterPoint (c : List (ℕ × Point)) : Point :=
  round_point ((c.map (fun ip => ip.2.1)).sum / (c.length : ℚ),
               (c.map (fun ip => ip.2.2)).sum / (c.length : ℚ))

/-- Endpoint-index ↦ merged-point assignment built from the clusters. -/
def mergedMap (tol : ℚ) (eps : List (ℕ × Point)) : List (ℕ × Point) :=
  (mergeClusters tol eps).foldr
    (fun c acc => c.map (fun ip => (ip.1, clusterPoint c)) ++ acc) []

/-- Wall graph: insertion-ordered adjacency list, node ↦ (neighbor, wall index). -/
abbrev Graph := List (Point × List (Point × ℕ))

/-- Append to a `defaultdict(list)`: extend the key's list, creating the key at
the end on first touch. -/
def dictAppend (g : Graph) (k : Point) (v : Point × ℕ) : Graph :=
  match g with
  | [] => [(k, [v])]
  | (k', vs) :: rest => if k' = k then (k', vs ++ [v]) :: rest else (k', vs) :: dictAppend rest k v

/-- Adjacency graph of the wall centerlines (`_build_wall_graph`): endpoints
merged within tolerance, one undirected edge per wall whose merged endpoints
differ. -/
def build_wall_graph (walls : List Record) (tol : ℚ) : Graph :=
  let eps := (wallEndpoints walls).enum
  let merged := mergedMap tol (eps.map fun ie => (ie.1, ie.2.1))
  walls.enum.foldl (fun g iw =>
    match iw.2.wallProps? with
    | some p =>
      match p.startP, p.endP with
      | some _, some _ =>
        let sm := (eps.find? fun ie => ie.2.2.1 = iw.1 ∧ ie.2.2.2 = true).bind
          fun ie => (merged.find? fun me => me.1 = ie.1).map Prod.snd
        let em := (eps.find? fun ie => ie.2.2.1 = iw.1 ∧ ie.2.2.2 = false).bind
          fun ie => (merged.find? fun me => me.1 = ie.1).map Prod.snd
        match sm, em with
        | some s, some e =>
          if s ≠ e then dictAppend (dictAppend g s (e, iw.1)) e (s, iw.1) else g
        | _, _ => g
      | _, _ => g
    | none => g) []

/-- Neighbor list of a node (`graph.get(current, [])`). -/
def graphGet (g : Graph) (n : Point) : List (Point × ℕ) :=
  match g.find? (fun kv => kv.1 = n) with
  | some kv => kv.2
  | none => []

/-- Python tuple `<` on points (lexicographic). -/
def lexLt (p q : Point) : Bool := p.1 < q.1 ∨ (p.1 = q.1 ∧ p.2 < q.2)

/-- `tuple(sorted([a, b]))` on two points. -/
def sortPair (p q : Point) : Point × Point := if lexLt q p then (q, p) else (p, q)

/-- Python `min` over a non-empty point list (first minimum wins). -/
def listMin (a : Point) (l : List Point) : Point :=
  l.foldl (fun x y => if lexLt y x then y else x) a

/-- Rotation of a cycle so that it starts at its lexicographically smallest
vertex (`cycle[min_idx:] + cycle[:min_idx]`). -/
def normalizeCycle (c : List Point) : List Point :=
  match c with
  | [] => []
  | p :: rest =>
    let i := c.indexOf (listMin p rest)
    c.drop i ++ c.take i

/-- One neighbor step of the cycle search: skip used edges, close a cycle of
length at least 3 back at the start (normalized and deduplicated against the
found list), skip visited nodes, otherwise recurse via `rec`. -/
def dfsVisit (start : Point)
    (rec : Point → List Point → List (Point × Point) → List (List Point) → List (List Point))
    (current : Point) (path : List Point) (pathEdges : List (Point × Point))
    (fnd : List (List Point)) (nb : Point × ℕ) : List (List Point) :=
  let edge := sortPair current nb.1
  if edge ∈ pathEdges then fnd
  else if nb.1 = start ∧ path.length ≥ 3 then
    let normalized := normalizeCycle path
    if normalized ∈ fnd ∨ normalized.reverse ∈ fnd then fnd else fnd ++ [normalized]
  else if nb.1 ∈ path then fnd
  else rec nb.1 (path ++ [nb.1]) (edge :: pathEdges) fnd

/-- Depth-first enumeration of simple cycles (`dfs` inside
`_find_minimal_cycles`): no edge reuse within a path, cycles of length ≥ 3
closed back at the start node, normalized and deduplicated against the found
list.  The fuel argument only bounds recursion depth; it exceeds the maximum
path length the length guard admits, so it never cuts the search short. -/
def dfsAux (g : Graph) (maxLen : ℕ) (start : Point) :
    ℕ → Point → List Point → List (Point × Point) → List (List Point) → List (List Point)
  | 0, _, _, _, found => found
  | fuel + 1, current, path, pathEdges, found =>
    if path.length > maxLen then found
    else
      (graphGet g current).foldl
        (dfsVisit start (dfsAux g maxLen start fuel) current path pathEdges) found

/-- Cycle enumeration from every node (`_find_minimal_cycles`). -/
def find_minimal_cycles (g : Graph) (maxLen : ℕ) : List (List Point) :=
  if g = [] then []
  else
    (g.map Prod.fst).foldl
      (fun found start => dfsAux g maxLen start (maxLen + 2) start [start] [] found) []

/-- Comparison used when sorting candidate cycles ascending by area. -/
def cycleLE (a b : List Point × ℚ) : Prop := a.2 ≤ b.2

instance : DecidableRel cycleLE := fun a b => inferInstanceAs (Decidable (a.2 ≤ b.2))

instance : IsTotal (List Point × ℚ) cycleLE := ⟨fun a b => le_total a.2 b.2⟩

instance : IsTrans (List Point × ℚ) cycleLE := ⟨fun _ _ _ h h' => le_trans h h'⟩

/-- One step of the minimality filter: drop a candidate of area below 100 or
without a centroid, drop it when its centroid lies in an already-accepted
cycle, accept it otherwise. -/
def roomStep (minimal : List (List Point)) (ca : List Point × ℚ) : List (List Point) :=
  if ca.2 < (100 : ℚ) then minimal
  else
    match polygon_centroid ca.1 with
    | none => minimal
    | some cen =>
      if minimal.any (fun ex => point_in_polygon cen ex) then minimal
      else minimal ++ [ca.1]

/-- Minimality filter (`_filter_minimal_cycles`): sort by area ascending,
drop areas below 100, accept a cycle only when its centroid lies in no
already-accepted cycle. -/
def filter_minimal_cycles (cycles : List (List Point)) : List (List Point) :=
  if cycles = [] then []
  else ((cycles.map fun c => (c, polygon_area c)).insertionSort cycleLE).foldl roomStep []

/-- Stripped text content of a TEXT/MTEXT entity (`_extract_text_content`). -/
def extract_text_content (e : Entity) : Option String :=
  if e.type = some "TEXT" ∨ e.type = some "MTEXT" then
    match orS e.text (orS e.textString e.contents) with
    | some t => if strTrim t = "" then none else some (strTrim t)
    | none => none
  else none

/-- Position of a TEXT/MTEXT entity (`_get_text_position`). -/
def get_text_position (e : Entity) : Option Point :=
  match orV e.position (orV e.insertionPoint e.startPoint) with
  | some v =>
    match v.x, v.y with
    | some a, some b => some (a, b)
    | _, _ => none
  | none => none

/-- Dimension-label heuristic: the text is purely numeric once `.`/`,`/`-` are
removed (Python `isdigit` on the stripped text). -/
def isNumericLike (s : String) : Bool :=
  let t := s.data.filter fun c => ¬(c = '.' ∨ c = ',' ∨ c = '-')
  t ≠ [] ∧ t.all Char.isDigit

/-- One room record (body of the record loop of `build_room_records`). -/
def mkRoomRecord (fid : String) (texts : List (Point × String)) (i : ℕ)
    (cycle : List Point) : Record :=
  let area := polygon_area cycle
  let cen := polygon_centroid cycle
  let roomTexts := (texts.filter fun pt => point_in_polygon pt.1 cycle).map Prod.snd
  let name : Option String :=
    if roomTexts = [] then none
    else
      match roomTexts.find? (fun t => ¬ isNumericLike t) with
      | some t => some t
      | none => roomTexts.head?
  let bbox : Bbox :=
    match cycle with
    | [] => ⟨0, 0, 0, 0⟩
    | p :: rest =>
      ⟨round2 (foldMin p.1 (rest.map Prod.fst)), round2 (foldMin p.2 (rest.map Prod.snd)),
       round2 (foldMax p.1 (rest.map Prod.fst)), round2 (foldMax p.2 (rest.map Prod.snd))⟩
  { file_id := fid, kind := "room", confidence := none, source_rule := "wall_enclosure",
    geom_wkt := vertices_to_wkt_polygon cycle,
    properties := .room
      { room_index := i, name := name, area := round2 area,
        area_sqm := round2 (area / 1000000),
        centroid := cen.map fun c => ⟨round2 c.1, round2 c.2⟩,
        bbox := bbox,
        vertices := cycle.map fun p => ⟨round2 p.1, round2 p.2⟩,
        vertex_count := cycle.length,
        texts_inside := roomTexts } }

/-- Room detection (`build_room_records`): wall graph, cycle enumeration,
minimality filter, interior-text attachment. -/
def build_room_records (fid : String) (walls : List Record) (ents : List Entity)
    (tol : ℚ) : List Record :=
  if walls = [] then []
  else
    let graph := build_wall_graph walls tol
    if graph = [] then []
    else
      let cycles := find_minimal_cycles graph 20
      if cycles = [] then []
      else
        let minimal := filter_minimal_cycles cycles
        if minimal = [] then []
        else
          let texts := ents.foldr (fun e acc =>
            match extract_text_content e, get_text_position e with
            | some t, some p => (p, t) :: acc
            | _, _ => acc) []
          minimal.enum.map fun ic => mkRoomRecord fid texts (ic.1 + 1) ic.2

/-- A point with integer coordinates: the image of `round_point`, hence the
shape of every node the room pipeline manipulates. -/
def IntPt (p : Point) : Prop := ∃ a b : ℤ, p = ((a : ℚ), (b : ℚ))

/-- Every node and neighbor of a graph has integer coordinates. -/
def GraphInt (g : Graph) : Prop :=
  ∀ kv ∈ g, IntPt kv.1 ∧ ∀ nb ∈ kv.2, IntPt nb.1

/-- Ordering relation the minimality filter establishes between an accepted
cycle and every later-accepted cycle: the earlier one has no larger area and
does not contain the later one's centroid. -/
def cycleGood (c1 c2 : List Point) : Prop :=
  polygon_area c1 ≤ polygon_area c2 ∧
    ∀ cen, polygon_centroid c2 = some cen → point_in_polygon cen c1 = false

/-- Point list of a stored vertex ring. -/
def ptsOfVerts (vs : List PtR) : List Point := vs.map fun v => (v.x, v.y)

/-! ## detectors/door.py -/

/-- Room properties probed from a record. -/
def Record.roomProps? (r : Record) : Option RoomProps :=
  match r.properties with
  | .room p => some p
  | _ => none

/-- Representative center of a door-layer entity (`_get_entity_center`). -/
def get_entity_center (e : Entity) : Option Point :=
  if e.type = some "ARC" then
    match e.center with
    | some v =>
      match v.x, v.y with
      | some a, some b => some (a, b)
      | _, _ => none
    | none => none
  else if e.type = some "CIRCLE" then
    match orV e.center e.position with
    | some v =>
      match v.x, v.y with
      | some a, some b => some (a, b)
      | _, _ => none
    | none => none
  else if e.type = some "INSERT" then
    match e.position with
    | some v =>
      match v.x, v.y with
      | some a, some b => some (a, b)
      | _, _ => none
    | none => none
  else if e.type = some "LINE" ∨ e.type = some "LWPOLYLINE" then
    match extract_points e with
    | [] => none
    | p :: rest =>
      some (((p :: rest).map Prod.fst).sum / ((p :: rest).length : ℚ),
            ((p :: rest).map Prod.snd).sum / ((p :: rest).length : ℚ))
  else none

/-- Estimated door width (`_get_entity_width`), defaulting to 900. -/
def get_entity_width (e : Entity) : ℚ :=
  if e.type = some "ARC" then
    match e.radius with
    | some r => r
    | none => 900
  else if e.type = some "LINE" then
    match extract_points e with
    | p :: q :: _ => distance p q
    | _ => 900
  else if e.type = some "LWPOLYLINE" then
    match extract_points e with
    | [] => 900
    | p :: rest =>
      max (foldMax p.1 (rest.map Prod.fst) - foldMin p.1 (rest.map Prod.fst))
          (foldMax p.2 (rest.map Prod.snd) - foldMin p.2 (rest.map Prod.snd))
  else 900

/-- Squared point-to-segment distance (`_point_to_segment_distance` squared;
the source's degeneracy guard is on the squared length itself). -/
def pointSegDistSq (p a b : Point) : ℚ :=
  let dx := b.1 - a.1
  let dy := b.2 - a.2
  let lsq := dx^2 + dy^2
  if lsq < 1/10^9 then distSq p a
  else
    let t := max 0 (min 1 (((p.1 - a.1) * dx + (p.2 - a.2) * dy) / lsq))
    distSq p (a.1 + t * dx, a.2 + t * dy)

/-- Nearest wall within the distance bound (`_find_nearest_wall`), comparing
squared distances (exactly equivalent to comparing the distances). -/
def find_nearest_wall (doorC : Point) (walls : List Record) (maxD : ℚ) : Option Record :=
  (walls.foldl (fun best w =>
    match w.wallProps? with
    | some p =>
      match p.startP, p.endP with
      | some s, some e =>
        let dsq := pointSegDistSq doorC (s.x, s.y) (e.x, e.y)
        let better : Bool :=
          match best with
          | none => true
          | some bw => dsq < bw.1
        if better ∧ 0 ≤ maxD ∧ dsq ≤ maxD^2 then some (dsq, w) else best
      | _, _ => best
    | none => best) (none : Option (ℚ × Record))).map Prod.snd

/-- Rooms touched by the two probe points offset perpendicular to the wall
(`_find_adjacent_rooms` with `search_offset = 300`). -/
def find_adjacent_rooms (doorC : Point) (wall : Record) (rooms : List Record)
    (searchOffset : ℚ) : List Record :=
  let dxy : Point :=
    match wall.wallProps? with
    | some p => (p.direction.x, p.direction.y)
    | none => (1, 0)
  let thickness : ℚ :=
    match wall.wallProps? with
    | some p => p.thickness
    | none => 200
  let off := thickness / 2 + searchOffset
  let t1 : Point := (doorC.1 + (-dxy.2) * off, doorC.2 + dxy.1 * off)
  let t2 : Point := (doorC.1 - (-dxy.2) * off, doorC.2 - dxy.1 * off)
  rooms.foldr (fun r acc =>
    match r.roomProps? with
    | some p =>
      if p.vertices = [] then acc
      else
        let poly := p.vertices.map fun v => (v.x, v.y)
        if point_in_polygon t1 poly ∨ point_in_polygon t2 poly then r :: acc else acc
    | none => acc) []

/-- One collected door-layer entity with center and width. -/
structure DoorCand where
  ent : Entity
  center : Point
  width : ℚ
deriving DecidableEq, Repr

/-- Room-connectivity map: room index ↦ connected indices, insertion-ordered
(the source uses a dict of int sets; CPython iterates both deterministically,
and no claim depends on the edge order). -/
abbrev ConnMap := List (ℕ × List ℕ)

/-- `room_connections[ri].add(rj)`, creating the key at the end on first touch. -/
def connAdd (m : ConnMap) (ri rj : ℕ) : ConnMap :=
  match m with
  | [] => [(ri, [rj])]
  | (k, vs) :: rest =>
    if k = ri then (k, if rj ∈ vs then vs else vs ++ [rj]) :: rest
    else (k, vs) :: connAdd rest ri rj

/-- Connectivity update for the rooms adjacent to one door. -/
def connUpdate (m : ConnMap) (indices : List ℕ) : ConnMap :=
  indices.enum.foldl (fun m' iri =>
    let m'' := if (m'.find? (fun kv => kv.1 = iri.2)).isSome then m' else m' ++ [(iri.2, [])]
    indices.enum.foldl
      (fun mm jrj => if iri.1 ≠ jrj.1 then connAdd mm iri.2 jrj.2 else mm) m'') m

/-- Deduplicated unordered edges of the connectivity map. -/
def connEdges (m : ConnMap) : List (ℕ × ℕ) :=
  m.foldl (fun acc kv =>
    kv.2.foldl (fun acc' rb =>
      let e := if kv.1 ≤ rb then (kv.1, rb) else (rb, kv.1)
      if e ∈ acc' then acc' else acc' ++ [e]) acc) []

/-- Record and connectivity contribution of one door entity (loop body of
`build_door_records`). -/
def doorStep (fid : String) (walls rooms : List Record) (maxWallDist : ℚ)
    (st : List Record × ConnMap) (idx : ℕ) (d : DoorCand) : List Record × ConnMap :=
  let wall := find_nearest_wall d.center walls maxWallDist
  let info : Option WallInfo :=
    match wall with
    | some w => some ⟨(w.wallProps?).map WallProps.wall_index, w.kind⟩
    | none => none
  let idxNames : List (ℕ × Option String) :=
    match wall with
    | some w =>
      (find_adjacent_rooms d.center w rooms 300).filterMap fun r =>
        match r.roomProps? with
        | some p => if p.room_index ≠ 0 then some (p.room_index, p.name) else none
        | none => none
    | none => []
  let indices := idxNames.map Prod.fst
  let m' := if indices.length ≥ 2 then connUpdate st.2 indices else st.2
  let rec_ : Record :=
    { file_id := fid, kind := "door", confidence := none,
      source_rule := "layer:non-door-layer", geom_wkt := some (point_to_wkt d.center),
      properties := .door
        { door_index := idx, center := ⟨round2 d.center.1, round2 d.center.2⟩,
          width := round2 d.width, entity_type := d.ent.type,
          entity_handle := d.ent.handle, wall := info,
          connects_rooms := indices,
          connects_room_names := idxNames.map Prod.snd } }
  (st.1 ++ [rec_], m')

/-- Door detection and room connectivity (`build_door_records`). -/
def build_door_records (fid : String) (walls rooms : List Record)
    (ents : List Entity) (sels : Option Selections) (maxWallDist : ℚ) : List Record :=
  match sels with
  | none => []
  | some l =>
    if l = [] then []
    else
      let layersU := upperTruthy (selGet l "non-door-layer")
      if layersU = [] then []
      else
        let doorEnts : List DoorCand := ents.foldr (fun e acc =>
          if entLayer e ∈ layersU then
            match get_entity_center e with
            | some c => ⟨e, c, get_entity_width e⟩ :: acc
            | none => acc
          else acc) []
        if doorEnts = [] then []
        else
          let st := doorEnts.enum.foldl
            (fun st id_ => doorStep fid walls rooms maxWallDist st (id_.1 + 1) id_.2)
            (([], []) : List Record × ConnMap)
          if st.2 = [] then st.1
          else
            st.1 ++
              [{ file_id := fid, kind := "room_connectivity", confidence := none,
                 source_rule := "door_analysis", geom_wkt := none,
                 properties := .connectivity
                   ⟨connEdges st.2, st.2.length, doorEnts.length⟩ }]

/-! ## builder.py (orchestrator) -/

/-- Tables blob; the orchestrator receives it but never reads it. -/
abbrev Tables := List (String × List String)

/-- The orchestrator (`build_all_records`): basic rule pass, then border, axis,
column, wall and room detectors, concatenated in that fixed order.  The door
detector (`build_door_records`) is defined in the source but never invoked
here. -/
def build_all_records (fid : String) (ents : List Entity) (blocks : Blocks)
    (_tables : Tables) (sels : Option Selections) (rules : List Rule) : List Record :=
  let basic := build_semantic_records ents fid rules
  let borders := build_border_records fid blocks ents sels
  let summaries := build_axis_summary_records fid borders ents sels
  let columns := build_column_records fid summaries ents sels 150
  let walls := build_wall_records fid borders ents sels 1000 500
  let rooms := build_room_records fid walls ents 50
  basic ++ borders ++ summaries ++ columns ++ walls ++ rooms

/-! ## Concrete inputs used by counterexamples and witnesses -/

/-- Placeholder record for total list indexing. -/
def dummyRecord : Record :=
  { file_id := "", kind := "", confidence := none, source_rule := "",
    geom_wkt := none, properties := .connectivity ⟨[], 0, 0⟩ }

/-- A border record with world bbox `[0,10000] × [0,10000]`. -/
def tBorder : Record :=
  { file_id := "f", kind := "border", confidence := none, source_rule := "block:B",
    geom_wkt := none,
    properties := .border ⟨"B", some "h0", ⟨0, 0, 100, 100⟩, ⟨0, 0, 10000, 10000⟩⟩ }

/-- A vertical LINE on layer `AX` at x = 5000 inside `tBorder`'s bbox. -/
def tVertLine : Entity :=
  { type := some "LINE", layer := some "AX", handle := some "e1",
    startPoint := some ⟨some 5000, some 1000⟩, endPoint := some ⟨some 5000, some 9000⟩ }

/-- Horizontal LINE on wall layer `W` from (0,0) to (1000,0). -/
def tW1 : Entity :=
  { type := some "LINE", layer := some "W", handle := some "w1",
    startPoint := some ⟨some 0, some 0⟩, endPoint := some ⟨some 1000, some 0⟩ }

/-- Horizontal LINE on wall layer `W` from (0,1) to (1000,1): perpendicular
distance to `tW1` is exactly 1. -/
def tW2 : Entity :=
  { type := some "LINE", layer := some "W", handle := some "w2",
    startPoint := some ⟨some 0, some 1⟩, endPoint := some ⟨some 1000, some 1⟩ }

/-- Horizontal LINE on wall layer `W` from (0,200) to (1000,200). -/
def tW3 : Entity :=
  { type := some "LINE", layer := some "W", handle := some "w3",
    startPoint := some ⟨some 0, some 200⟩, endPoint := some ⟨some 1000, some 200⟩ }

/-- Selections choosing only the non-structural wall layer `W`. -/
def tSelsW : Option Selections := some [("non-wall-layer", ["W"])]

/-- L-shaped LWPOLYLINE on layer `W`: two perpendicular segments. -/
def tPoly : Entity :=
  { type := some "LWPOLYLINE", layer := some "W", handle := some "p",
    vertices := some [⟨some 0, some 0⟩, ⟨some 1000, some 0⟩, ⟨some 1000, some 2000⟩] }

/-- Horizontal LINE on layer `W` parallel to `tPoly`'s first segment. -/
def tQ : Entity :=
  { type := some "LINE", layer := some "W", handle := some "q",
    startPoint := some ⟨some 0, some 10⟩, endPoint := some ⟨some 1000, some 10⟩ }

/-- Vertical LINE on layer `W` parallel to `tPoly`'s second segment. -/
def tR : Entity :=
  { type := some "LINE", layer := some "W", handle := some "r",
    startPoint := some ⟨some 1010, some 0⟩, endPoint := some ⟨some 1010, some 2000⟩ }

/-- Long wall lines and a door line for the orchestrator input. -/
def tWa : Entity :=
  { type := some "LINE", layer := some "W", handle := some "wa",
    startPoint := some ⟨some 0, some 0⟩, endPoint := some ⟨some 2000, some 0⟩ }

/-- Second long wall line at y = 200. -/
def tWb : Entity :=
  { type := some "LINE", layer := some "W", handle := some "wb",
    startPoint := some ⟨some 0, some 200⟩, endPoint := some ⟨some 2000, some 200⟩ }

/-- Door-layer LINE centered on the detected wall's centerline. -/
def tDoor : Entity :=
  { type := some "LINE", layer := some "D", handle := some "d1",
    startPoint := some ⟨some 940, some 100⟩, endPoint := some ⟨some 1060, some 100⟩ }

/-- Selections choosing wall layer `W` and door layer `D`. -/
def tSelsWD : Option Selections := some [("non-wall-layer", ["W"]), ("non-door-layer", ["D"])]

/-- Wall record with the given index and centerline endpoints (the fields the
room detector reads). -/
def mkTWall (i : ℕ) (a b : Point) : Record :=
  { file_id := "f", kind := "partition_wall", confidence := none,
    source_rule := "layer:non-wall-layer", geom_wkt := none,
    properties := .wall ⟨i, "f", [], 100, 0, some ⟨a.1, a.2⟩, some ⟨b.1, b.2⟩, ⟨1, 0⟩⟩ }

/-- Eight walls forming two rectangles of equal area 48000: a 240×200 rectangle
at the origin and an 800×60 rectangle covering the first one's centroid. -/
def tWalls8 : List Record :=
  [mkTWall 1 (0, 0) (240, 0), mkTWall 2 (240, 0) (240, 200),
   mkTWall 3 (240, 200) (0, 200), mkTWall 4 (0, 200) (0, 0),
   mkTWall 5 (60, 70) (860, 70), mkTWall 6 (860, 70) (860, 130),
   mkTWall 7 (860, 130) (60, 130), mkTWall 8 (60, 130) (60, 70)]

/-- Room records of the two-rectangle wall set. -/
def tRooms8 : List Record := build_room_records "f" tWalls8 [] 50

/-- Placeholder room property bag for total option unwrapping. -/
def dummyRoomProps : RoomProps :=
  ⟨0, none, 0, 0, none, ⟨0, 0, 0, 0⟩, [], 0, []⟩

/-- Property bag of the `k`-th room record of `tRooms8`. -/
def tRoomP (k : ℕ) : RoomProps :=
  ((tRooms8.getD k dummyRecord).roomProps?).getD dummyRoomProps

/-- Placeholder column candidate for total list indexing. -/
def dummyCand : ColCand := ⟨"", 0, ⟨0, 0⟩, .circle 0 0⟩

/-- Column candidates: two 600×400-style rectangles with swapped dimensions and
one circle of radius 300. -/
def tCols : List ColCand :=
  [⟨"f", 1, ⟨0, 0⟩, .rect 600 400⟩, ⟨"f", 1, ⟨7000, 0⟩, .rect 400 600⟩,
   ⟨"f", 1, ⟨14000, 0⟩, .circle 300 600⟩]

/-- Border with bbox `[0,1000] × [0,1000]` (first border for the wall filter). -/
def tB1 : Record :=
  { file_id := "f", kind := "border", confidence := none, source_rule := "block:B",
    geom_wkt := none,
    properties := .border ⟨"B", some "h1", ⟨0, 0, 10, 10⟩, ⟨0, 0, 1000, 1000⟩⟩ }

/-- Border with bbox `[2000,4000] × [0,1000]` (a later border). -/
def tB2 : Record :=
  { file_id := "f", kind := "border", confidence := none, source_rule := "block:B",
    geom_wkt := none,
    properties := .border ⟨"B", some "h2", ⟨0, 0, 10, 10⟩, ⟨2000, 0, 4000, 1000⟩⟩ }

/-- Wall-layer LINE inside `tB2`'s bbox but outside `tB1`'s. -/
def tFar : Entity :=
  { type := some "LINE", layer := some "W", handle := some "far",
    startPoint := some ⟨some 2500, some 100⟩, endPoint := some ⟨some 3500, some 100⟩ }

/-- Selections choosing only the axis layer `AX`. -/
def tSelsAX : Option Selections := some [("struct-axis-layer", ["AX"])]

/-- The single summary record the axis detector emits on the
`tBorder`/`tVertLine` input. -/
def tAxisRec : Record :=
  (build_axis_summary_records "f" [tBorder] [tVertLine] tSelsAX).getD 0 dummyRecord

/-- The property bag of `tAxisRec`. -/
def tAxisProps : AxisSummaryProps :=
  ⟨1, some "h0", [], [⟨some "e1", some "AX", 5000, "X1"⟩], [], [],
   ⟨0, 0, 10000, 10000⟩, []⟩

/-- Wall properties of the first wall on the `tPoly`/`tQ`/`tR` input. -/
def tC6p1 : WallProps :=
  ⟨1, "f", ["p_0", "q"], 10, 1000, some ⟨0, 5⟩, some ⟨1000, 5⟩, ⟨1, 0⟩⟩

/-- Wall properties of the second wall on the `tPoly`/`tQ`/`tR` input. -/
def tC6p2 : WallProps :=
  ⟨2, "f", ["p_1", "r"], 10, 2000, some ⟨1005, 0⟩, some ⟨1005, 2000⟩, ⟨0, 1⟩⟩

/-! ## Theorems -/

/-- Claim C4, counterexample: `rules_from_selections` does not signal an error
on a selections map whose key `"bogus-key"` is not in `SELECTION_RULE_MAP`; it
returns normally, silently dropping that key while converting the remaining
entries — contradicting the claim that such a key fails fast. -/
theorem C4_counterexample :
    rules_from_selections (some [("bogus-key", ["X"]), ("non-door-layer", ["D"])]) =
      [{ kind := "door", keys := ["D"], source := "layer", matchMode := some "exact" }] := by
  decide

/-- Claim C4, amended: a selections key that is not in the fixed selection
table `SELECTION_RULE_MAP` is silently ignored by `rules_from_selections` —
removing the entry does not change the result, and no error is signalled (the
function is total). -/
theorem C4_unknown_key_ignored (key : String) (vals : List String) (l1 l2 : Selections)
    (h : key ∉ SELECTION_RULE_MAP.map Prod.fst) :
    rules_from_selections (some (l1 ++ (key, vals) :: l2)) =
      rules_from_selections (some (l1 ++ l2)) := by
  have hfind : SELECTION_RULE_MAP.find? (fun e => e.1 = key) = none := by
    rw [List.find?_eq_none]
    intro x hx hxk
    exact h (List.mem_map.mpr ⟨x, hx, by simpa using hxk⟩)
  have hstep : ∀ acc, selRuleStep (key, vals) acc = acc := by
    intro acc
    simp [selRuleStep, hfind]
  simp only [rules_from_selections]
  rw [if_neg (by simp), List.foldr_append, List.foldr_cons, hstep, ← List.foldr_append]
  by_cases hr : l1 ++ l2 = []
  · rw [if_pos hr, hr]
    rfl
  · rw [if_neg hr]

/-- Witness for the amended claim C4 at a concrete input. -/
theorem C4_witness :
    "bogus-key" ∉ SELECTION_RULE_MAP.map Prod.fst ∧
      rules_from_selections (some ([] ++ ("bogus-key", ["X"]) :: [("non-door-layer", ["D"])])) =
        rules_from_selections (some ([] ++ [("non-door-layer", ["D"])])) :=
  ⟨by decide, C4_unknown_key_ignored "bogus-key" ["X"] [] [("non-door-layer", ["D"])] (by decide)⟩

/-- Claim C9: the orchestrator is deterministic — the embedding of
`build_all_records` is a pure function of its arguments over fully ordered
structures (lists standing for the insertion-ordered dicts of the source, whose
iteration order CPython fixes), with no hidden state, randomness, or clock
access anywhere in the call graph, so two runs on equal inputs give equal
ordered outputs. -/
theorem C9_deterministic (fid : String) (ents1 ents2 : List Entity) (bl1 bl2 : Blocks)
    (t1 t2 : Tables) (s1 s2 : Option Selections) (r1 r2 : List Rule)
    (he : ents1 = ents2) (hb : bl1 = bl2) (ht : t1 = t2) (hs : s1 = s2) (hr : r1 = r2) :
    build_all_records fid ents1 bl1 t1 s1 r1 = build_all_records fid ents2 bl2 t2 s2 r2 := by
  rw [he, hb, ht, hs, hr]

/-- Witness for claim C9 at a concrete input. -/
theorem C9_witness :
    ([tW1, tW3] = [tW1, tW3]) ∧
      build_all_records "f" [tW1, tW3] [] [] tSelsW [] =
        build_all_records "f" [tW1, tW3] [] [] tSelsW [] :=
  ⟨rfl, C9_deterministic "f" [tW1, tW3] [tW1, tW3] [] [] [] [] tSelsW tSelsW [] []
    rfl rfl rfl rfl rfl⟩

/-- The enumerated axis loop emits exactly one summary per border with a world
bbox, independently of the running index. -/
theorem axisSummAux_length (fid : String) (ents : List Entity) (layersU : List String) :
    ∀ (borders : List Record) (idx : ℕ),
      (axisSummAux fid ents layersU idx borders).length =
        (borders.filter (fun b => b.bboxWorld?.isSome)).length := by
  intro borders
  induction borders with
  | nil => intro idx; rfl
  | cons b rest ih =>
    intro idx
    simp only [axisSummAux, List.filter_cons]
    cases h : b.bboxWorld? with
    | none => simp [h, ih]
    | some bbox => simp [h, ih]

/-- Every record emitted by the axis loop is a `mkAxisSummary`. -/
theorem axisSummAux_mem (fid : String) (ents : List Entity) (layersU : List String) :
    ∀ (borders : List Record) (idx : ℕ) (r : Record),
      r ∈ axisSummAux fid ents layersU idx borders →
        ∃ i bh bbox, r = mkAxisSummary fid ents layersU i bh bbox := by
  intro borders
  induction borders with
  | nil => intro idx r h; cases h
  | cons b rest ih =>
    intro idx r h
    simp only [axisSummAux] at h
    cases hb : b.bboxWorld? with
    | none =>
      rw [hb] at h
      exact ih (idx + 1) r h
    | some bbox =>
      rw [hb] at h
      rcases List.mem_cons.mp h with h' | h'
      · exact ⟨idx, b.insertHandle?, bbox, h'⟩
      · exact ih (idx + 1) r h'

/-- Claim C2: for a selections map with a non-empty `struct-axis-layer` entry
(one that selects at least one non-empty layer name), the axis detector emits
exactly one `axis_summary` record per border record carrying a world bbox,
each with a geometry string and the full summary property bag, and — being a
total function — signals no error. -/
theorem C2_axis_summary_per_border (fid : String) (borders : List Record)
    (ents : List Entity) (l : Selections)
    (h : upperTruthy (selGet l "struct-axis-layer") ≠ []) :
    (build_axis_summary_records fid borders ents (some l)).length =
        (borders.filter (fun b => b.bboxWorld?.isSome)).length ∧
      ∀ r ∈ build_axis_summary_records fid borders ents (some l),
        r.kind = "axis_summary" ∧ r.geom_wkt.isSome = true ∧ r.axisProps?.isSome = true := by
  have hl : l ≠ [] := by
    intro hnil
    exact h (by rw [hnil]; rfl)
  have hdef : build_axis_summary_records fid borders ents (some l) =
      axisSummAux fid ents (upperTruthy (selGet l "struct-axis-layer")) 1 borders := by
    simp only [build_axis_summary_records]
    rw [if_neg hl, if_neg h]
  refine ⟨?_, ?_⟩
  · rw [hdef]
    exact axisSummAux_length fid ents _ borders 1
  · intro r hr
    rw [hdef] at hr
    obtain ⟨i, bh, bbox, rfl⟩ := axisSummAux_mem fid ents _ borders 1 r hr
    exact ⟨rfl, rfl, rfl⟩

set_option maxRecDepth 10000 in
/-- Witness for claim C2 at a concrete input: one border with a bbox yields one
axis summary. -/
theorem C2_witness :
    upperTruthy (selGet [("struct-axis-layer", ["AX"])] "struct-axis-layer") ≠ [] ∧
      (build_axis_summary_records "f" [tBorder] [tVertLine]
          (some [("struct-axis-layer", ["AX"])])).length =
        ([tBorder].filter (fun b => b.bboxWorld?.isSome)).length :=
  ⟨by decide,
   (C2_axis_summary_per_border "f" [tBorder] [tVertLine] [("struct-axis-layer", ["AX"])]
      (by decide)).1⟩

set_option maxRecDepth 4000 in
unseal Rat.add Rat.mul Rat.sub Rat.inv in
/-- Claim C3, counterexample: a single vertical axis line (constant x = 5000)
inside a border is emitted as a `y_axes` entry keyed by its x coordinate but
labeled `X1`, not `Y1` as the claim states (the code pairs vertical lines with
`X` labels and horizontal lines with `Y` labels). -/
theorem C3_counterexample :
    ((build_axis_summary_records "f" [tBorder] [tVertLine]
        (some [("struct-axis-layer", ["AX"])])).map fun r =>
          r.axisProps?.map fun p =>
            (p.x_axes.map AxisItem.label, p.y_axes.map fun a => (a.label, a.coord))) =
      [some ([], [("X1", 5000)])] := by
  decide

/-- Labels assigned by the sequential labeling loop. -/
theorem labelAxes_labels (pre : String) :
    ∀ (l : List AxisPre) (i : ℕ),
      (labelAxes pre i l).map AxisItem.label =
        (List.range l.length).map (fun k => pre ++ natToStr (i + k)) := by
  intro l
  induction l with
  | nil => intro i; rfl
  | cons a rest ih =>
    intro i
    simp only [labelAxes, List.map_cons, List.length_cons, List.range_succ_eq_map,
      List.map_map, List.cons_eq_cons]
    refine ⟨by rw [Nat.add_zero], ?_⟩
    rw [ih (i + 1)]
    apply List.map_congr_left
    intro k _
    simp only [Function.comp_apply, Nat.succ_eq_add_one]
    rw [Nat.add_comm k 1, ← Nat.add_assoc]

/-- The labeling loop keeps the coordinates. -/
theorem labelAxes_coords (pre : String) :
    ∀ (l : List AxisPre) (i : ℕ),
      (labelAxes pre i l).map AxisItem.coord = l.map AxisPre.coord := by
  intro l
  induction l with
  | nil => intro i; rfl
  | cons a rest ih =>
    intro i
    simp only [labelAxes, List.map_cons, ih]

/-- Every labeled item keeps the handle, layer, and coordinate of an item of
the unlabeled list. -/
theorem labelAxes_mem (pre : String) :
    ∀ (l : List AxisPre) (i : ℕ) (it : AxisItem), it ∈ labelAxes pre i l →
      (⟨it.handle, it.layer, it.coord⟩ : AxisPre) ∈ l := by
  intro l
  induction l with
  | nil => intro i it h; cases h
  | cons a rest ih =>
    intro i it h
    rcases List.mem_cons.mp h with h' | h'
    · subst h'
      exact List.mem_cons_self _ _
    · exact List.mem_cons_of_mem _ (ih (i + 1) it h')

/-- The axis-orientation tag is one of the two axis constants. -/
theorem axis_orientation_tag {points : List Point} {eps : ℚ} {t : String} {c : ℚ}
    (h : axis_orientation points eps = some (t, c)) : t = "Y_AXIS" ∨ t = "X_AXIS" := by
  rcases points with _ | ⟨p, rest⟩
  · cases h
  · simp only [axis_orientation] at h
    split at h
    · injection h with h'
      exact Or.inl (congrArg Prod.fst h').symm
    · split at h
      · injection h with h'
        exact Or.inr (congrArg Prod.fst h').symm
      · cases h

/-- Elimination of a successful axis-candidate classification. -/
theorem axisEntPre_elim {e : Entity} {layersU : List String} {bbox : Bbox} {t : String}
    {a : AxisPre} (h : axisEntPre e layersU bbox = some (t, a)) :
    (e.type = some "LINE" ∨ e.type = some "LWPOLYLINE") ∧
      axis_orientation (extract_points e) (1/1000000) = some (t, a.coord) := by
  unfold axisEntPre at h
  split at h
  case isTrue hc =>
    refine ⟨hc.1, ?_⟩
    split at h
    case h_1 => cases h
    case h_2 p rest hpts =>
      rw [hpts]
      split at h
      case isTrue hin =>
        split at h
        case h_1 t' c' ho =>
          rw [ho]
          injection h with h'
          have ht := congrArg Prod.fst h'
          have ha := congrArg Prod.snd h'
          simp only at ht ha
          rw [ht, ← ha]
        case h_2 => cases h
      case isFalse => cases h
  case isFalse hc => cases h

/-- Members of the vertical-axis collection come from entities classified
`Y_AXIS`; members of the horizontal collection from entities classified
`X_AXIS`. -/
theorem collectAxisPre_mem (ents : List Entity) (layersU : List String) (bbox : Bbox) :
    (∀ a ∈ (collectAxisPre ents layersU bbox).2,
        ∃ e ∈ ents, axisEntPre e layersU bbox = some ("Y_AXIS", a)) ∧
      ∀ a ∈ (collectAxisPre ents layersU bbox).1,
        ∃ e ∈ ents, axisEntPre e layersU bbox = some ("X_AXIS", a) := by
  induction ents with
  | nil =>
    exact ⟨fun a h => absurd h (by simp [collectAxisPre]),
           fun a h => absurd h (by simp [collectAxisPre])⟩
  | cons e rest ih =>
    rcases hc : axisEntPre e layersU bbox with _ | ⟨t, item⟩
    · have hred : collectAxisPre (e :: rest) layersU bbox = collectAxisPre rest layersU bbox := by
        simp only [collectAxisPre, hc]
      rw [hred]
      exact ⟨fun a h => (ih.1 a h).imp (fun e' h' => ⟨List.mem_cons_of_mem _ h'.1, h'.2⟩),
             fun a h => (ih.2 a h).imp (fun e' h' => ⟨List.mem_cons_of_mem _ h'.1, h'.2⟩)⟩
    · have htag := axis_orientation_tag (axisEntPre_elim hc).2
      rcases htag with hty | htx
      · subst hty
        have hred : collectAxisPre (e :: rest) layersU bbox =
            ((collectAxisPre rest layersU bbox).1,
              item :: (collectAxisPre rest layersU bbox).2) := by
          simp only [collectAxisPre, hc]
          rfl
        rw [hred]
        refine ⟨?_, ?_⟩
        · intro a h
          rcases List.mem_cons.mp h with h' | h'
          · subst h'
            exact ⟨e, List.mem_cons_self _ _, hc⟩
          · exact (ih.1 a h').imp (fun e' h'' => ⟨List.mem_cons_of_mem _ h''.1, h''.2⟩)
        · intro a h
          exact (ih.2 a h).imp (fun e' h'' => ⟨List.mem_cons_of_mem _ h''.1, h''.2⟩)
      · subst htx
        have hred : collectAxisPre (e :: rest) layersU bbox =
            (item :: (collectAxisPre rest layersU bbox).1,
              (collectAxisPre rest layersU bbox).2) := by
          simp only [collectAxisPre, hc]
          rfl
        rw [hred]
        refine ⟨?_, ?_⟩
        · intro a h
          exact (ih.1 a h).imp (fun e' h'' => ⟨List.mem_cons_of_mem _ h''.1, h''.2⟩)
        · intro a h
          rcases List.mem_cons.mp h with h' | h'
          · subst h'
            exact ⟨e, List.mem_cons_self _ _, hc⟩
          · exact (ih.2 a h').imp (fun e' h'' => ⟨List.mem_cons_of_mem _ h''.1, h''.2⟩)

/-- Length of the labeled list. -/
theorem labelAxes_length (pre : String) (l : List AxisPre) (i : ℕ) :
    (labelAxes pre i l).length = l.length := by
  have h := congrArg List.length (labelAxes_coords pre l i)
  simpa using h

/-- Destructuring of membership in the axis detector's output. -/
theorem build_axis_mem {fid : String} {borders : List Record} {ents : List Entity}
    {sels : Option Selections} {r : Record}
    (hr : r ∈ build_axis_summary_records fid borders ents sels) :
    ∃ l, sels = some l ∧ ∃ i bh bbox,
      r = mkAxisSummary fid ents (upperTruthy (selGet l "struct-axis-layer")) i bh bbox := by
  cases sels with
  | none => cases hr
  | some l =>
    simp only [build_axis_summary_records] at hr
    refine ⟨l, rfl, ?_⟩
    by_cases h1 : l = []
    · rw [if_pos h1] at hr
      cases hr
    · rw [if_neg h1] at hr
      by_cases h2 : upperTruthy (selGet l "struct-axis-layer") = []
      · rw [if_pos h2] at hr
        cases hr
      · rw [if_neg h2] at hr
        exact axisSummAux_mem fid ents _ borders 1 r hr

/-- Claim C3, amended: in every emitted axis summary, the vertical lines
(`Y_AXIS` orientation, keyed by their x coordinate) are sorted ascending by
coordinate and labeled `X1, X2, …` in order, and the horizontal lines (keyed
by their y coordinate) are labeled `Y1, Y2, …` — the label letter is the
opposite of the one the claim stated. -/
theorem C3_axis_labeling (fid : String) (borders : List Record) (ents : List Entity)
    (sels : Option Selections) (r : Record) (p : AxisSummaryProps)
    (hr : r ∈ build_axis_summary_records fid borders ents sels)
    (hp : r.properties = .axisSummary p) :
    (p.y_axes.map AxisItem.label =
        (List.range p.y_axes.length).map (fun k => "X" ++ natToStr (1 + k))) ∧
    ((p.y_axes.map AxisItem.coord).Sorted (· ≤ ·)) ∧
    (∀ it ∈ p.y_axes, ∃ e ∈ ents,
        (e.type = some "LINE" ∨ e.type = some "LWPOLYLINE") ∧
        axis_orientation (extract_points e) (1/1000000) = some ("Y_AXIS", it.coord)) ∧
    (p.x_axes.map AxisItem.label =
        (List.range p.x_axes.length).map (fun k => "Y" ++ natToStr (1 + k))) ∧
    ((p.x_axes.map AxisItem.coord).Sorted (· ≤ ·)) ∧
    (∀ it ∈ p.x_axes, ∃ e ∈ ents,
        (e.type = some "LINE" ∨ e.type = some "LWPOLYLINE") ∧
        axis_orientation (extract_points e) (1/1000000) = some ("X_AXIS", it.coord)) := by
  obtain ⟨l, rfl, i, bh, bbox, rfl⟩ := build_axis_mem hr
  set layersU := upperTruthy (selGet l "struct-axis-layer") with hlay
  have hpy : p.y_axes = labelAxes "X" 1 (sortAxes (collectAxisPre ents layersU bbox).2) := by
    have := hp
    simp only [mkAxisSummary] at this
    injection this with h'
    rw [← h']
  have hpx : p.x_axes = labelAxes "Y" 1 (sortAxes (collectAxisPre ents layersU bbox).1) := by
    have := hp
    simp only [mkAxisSummary] at this
    injection this with h'
    rw [← h']
  have sortedPart : ∀ (l' : List AxisPre) (pre : String),
      ((labelAxes pre 1 (sortAxes l')).map AxisItem.coord).Sorted (· ≤ ·) := by
    intro l' pre
    rw [labelAxes_coords]
    have hs : List.Sorted axisLE (sortAxes l') := List.sorted_insertionSort _ _
    exact (List.pairwise_map).mpr hs
  have labelPart : ∀ (l' : List AxisPre) (pre : String),
      (labelAxes pre 1 l').map AxisItem.label =
        (List.range (labelAxes pre 1 l').length).map (fun k => pre ++ natToStr (1 + k)) := by
    intro l' pre
    rw [labelAxes_length, labelAxes_labels]
  have provPart2 : ∀ it ∈ labelAxes "X" 1 (sortAxes (collectAxisPre ents layersU bbox).2),
      ∃ e ∈ ents, (e.type = some "LINE" ∨ e.type = some "LWPOLYLINE") ∧
        axis_orientation (extract_points e) (1/1000000) = some ("Y_AXIS", it.coord) := by
    intro it hit
    have ha := labelAxes_mem "X" _ 1 it hit
    have ha' : (⟨it.handle, it.layer, it.coord⟩ : AxisPre) ∈
        (collectAxisPre ents layersU bbox).2 :=
      (List.perm_insertionSort axisLE _).mem_iff.mp ha
    obtain ⟨e, he, hee⟩ := (collectAxisPre_mem ents layersU bbox).1 _ ha'
    have h2 := axisEntPre_elim hee
    exact ⟨e, he, h2.1, h2.2⟩
  have provPart1 : ∀ it ∈ labelAxes "Y" 1 (sortAxes (collectAxisPre ents layersU bbox).1),
      ∃ e ∈ ents, (e.type = some "LINE" ∨ e.type = some "LWPOLYLINE") ∧
        axis_orientation (extract_points e) (1/1000000) = some ("X_AXIS", it.coord) := by
    intro it hit
    have ha := labelAxes_mem "Y" _ 1 it hit
    have ha' : (⟨it.handle, it.layer, it.coord⟩ : AxisPre) ∈
        (collectAxisPre ents layersU bbox).1 :=
      (List.perm_insertionSort axisLE _).mem_iff.mp ha
    obtain ⟨e, he, hee⟩ := (collectAxisPre_mem ents layersU bbox).2 _ ha'
    have h2 := axisEntPre_elim hee
    exact ⟨e, he, h2.1, h2.2⟩
  rw [hpy, hpx]
  exact ⟨labelPart _ "X", sortedPart _ "X", provPart2,
         labelPart _ "Y", sortedPart _ "Y", provPart1⟩

set_option maxRecDepth 4000 in
unseal Rat.add Rat.mul Rat.sub Rat.inv in
/-- Witness for the amended claim C3 at a concrete input: the single vertical
line is the one `y_axes` entry, keyed by x = 5000 and labeled `X1`. -/
theorem C3_witness :
    (tAxisRec ∈ build_axis_summary_records "f" [tBorder] [tVertLine] tSelsAX) ∧
    (tAxisRec.properties = .axisSummary tAxisProps) ∧
    ((tAxisProps.y_axes.map AxisItem.label =
        (List.range tAxisProps.y_axes.length).map (fun k => "X" ++ natToStr (1 + k))) ∧
    ((tAxisProps.y_axes.map AxisItem.coord).Sorted (· ≤ ·)) ∧
    (∀ it ∈ tAxisProps.y_axes, ∃ e ∈ [tVertLine],
        (e.type = some "LINE" ∨ e.type = some "LWPOLYLINE") ∧
        axis_orientation (extract_points e) (1/1000000) = some ("Y_AXIS", it.coord)) ∧
    (tAxisProps.x_axes.map AxisItem.label =
        (List.range tAxisProps.x_axes.length).map (fun k => "Y" ++ natToStr (1 + k))) ∧
    ((tAxisProps.x_axes.map AxisItem.coord).Sorted (· ≤ ·)) ∧
    (∀ it ∈ tAxisProps.x_axes, ∃ e ∈ [tVertLine],
        (e.type = some "LINE" ∨ e.type = some "LWPOLYLINE") ∧
        axis_orientation (extract_points e) (1/1000000) = some ("X_AXIS", it.coord))) :=
  ⟨by decide, by decide,
   C3_axis_labeling "f" [tBorder] [tVertLine] tSelsAX tAxisRec tAxisProps
     (by decide) (by decide)⟩

set_option maxRecDepth 10000 in
unseal Rat.add Rat.mul Rat.sub Rat.inv in
/-- Claim C5, counterexample: two parallel fully-overlapping segments whose
supporting lines are at perpendicular distance exactly 1.0 (squared distance
exactly 1) are not treated as coincident duplicates — the detector emits one
wall from them, refuting the claim that the distance must be strictly greater
than 1.0. -/
theorem C5_counterexample :
    perpDistSq ⟨(0, 0), (1000, 0), "w1"⟩ ⟨(0, 1), (1000, 1), "w2"⟩ = some 1 ∧
      ((build_wall_records "f" [] [tW1, tW2] tSelsW 1000 500).map fun r =>
          match r.properties with
          | .wall p => some p.handles
          | _ => none) = [some ["w1", "w2"]] := by
  decide

/-- A successful partner search returns a later unused segment passing all the
pair guards. -/
theorem findPartner_some {s1 : Seg} {maxT minL : ℚ} {used : List ℕ} :
    ∀ {js : List (ℕ × Seg)} {j : ℕ} {s2 : Seg} {g : WallGeom},
      findPartner s1 maxT minL used js = some (j, s2, g) →
        (j, s2) ∈ js ∧ j ∉ used ∧ wallPairGeom s1 s2 maxT minL = some g := by
  intro js
  induction js with
  | nil => intro j s2 g h; cases h
  | cons p rest ih =>
    intro j s2 g h
    obtain ⟨j', s2'⟩ := p
    simp only [findPartner] at h
    by_cases hu : j' ∈ used
    · rw [if_pos hu] at h
      have := ih h
      exact ⟨List.mem_cons_of_mem _ this.1, this.2.1, this.2.2⟩
    · rw [if_neg hu] at h
      rcases hw : wallPairGeom s1 s2' maxT minL with _ | g'
      · rw [hw] at h
        have := ih h
        exact ⟨List.mem_cons_of_mem _ this.1, this.2.1, this.2.2⟩
      · rw [hw] at h
        injection h with h'
        have hj : j' = j := congrArg Prod.fst h'
        have hsg := congrArg Prod.snd h'
        have hs : s2' = s2 := congrArg Prod.fst hsg
        have hg : g' = g := congrArg Prod.snd hsg
        subst hj
        subst hs
        subst hg
        exact ⟨List.mem_cons_self _ _, hu, hw⟩

/-- Every wall pairing produced by the greedy loop pairs two segments of the
indexed list that pass all the pair guards. -/
theorem findWallsAux_mem {maxT minL : ℚ} :
    ∀ {l : List (ℕ × Seg)} {used : List ℕ} {w : WallRaw},
      w ∈ findWallsAux maxT minL l used →
        (w.i, w.s1) ∈ l ∧ (w.j, w.s2) ∈ l ∧
          wallPairGeom w.s1 w.s2 maxT minL = some w.geom := by
  intro l
  induction l with
  | nil => intro used w h; cases h
  | cons p rest ih =>
    intro used w h
    obtain ⟨i, s1⟩ := p
    simp only [findWallsAux] at h
    by_cases hu : i ∈ used
    · rw [if_pos hu] at h
      have := ih h
      exact ⟨List.mem_cons_of_mem _ this.1, List.mem_cons_of_mem _ this.2.1, this.2.2⟩
    · rw [if_neg hu] at h
      by_cases hd : segDegenerate s1 = true
      · rw [if_pos hd] at h
        have := ih h
        exact ⟨List.mem_cons_of_mem _ this.1, List.mem_cons_of_mem _ this.2.1, this.2.2⟩
      · rw [if_neg hd] at h
        rcases hf : findPartner s1 maxT minL used rest with _ | ⟨j, s2, g⟩
        · rw [hf] at h
          have := ih h
          exact ⟨List.mem_cons_of_mem _ this.1, List.mem_cons_of_mem _ this.2.1, this.2.2⟩
        · rw [hf] at h
          rcases List.mem_cons.mp h with h' | h'
          · subst h'
            have hp := findPartner_some hf
            exact ⟨List.mem_cons_self _ _, List.mem_cons_of_mem _ hp.1, hp.2.2⟩
          · have := ih h'
            exact ⟨List.mem_cons_of_mem _ this.1, List.mem_cons_of_mem _ this.2.1, this.2.2⟩

/-- A pair accepted by the guards is parallel and its squared line distance
lies in `[1, max_thickness²]`. -/
theorem wallPairGeom_dist {s1 s2 : Seg} {maxT minL : ℚ} {g : WallGeom}
    (h : wallPairGeom s1 s2 maxT minL = some g) :
    are_parallel s1 s2 = true ∧
      ∃ dsq, perpDistSq s1 s2 = some dsq ∧ 1 ≤ dsq ∧ dsq ≤ maxT^2 := by
  unfold wallPairGeom at h
  split at h
  · cases h
  · split at h
    · cases h
    · split at h
      · cases h
      · rename_i hpar hdist
        refine ⟨by simpa using hpar, ?_⟩
        have hd : distOk s1 s2 maxT = true := by simpa using hdist
        unfold distOk at hd
        rcases hq : perpDistSq s1 s2 with _ | dsq
        · rw [hq] at hd
          cases hd
        · rw [hq] at hd
          have := of_decide_eq_true hd
          exact ⟨dsq, rfl, this.2.2, this.2.1⟩

/-- Destructuring of membership in the wall detector's output: every record is
the conversion of an accepted pairing from one of the two layer groups. -/
theorem build_wall_mem {fid : String} {borders : List Record} {ents : List Entity}
    {sels : Option Selections} {maxT minL : ℚ} {r : Record}
    (hr : r ∈ build_wall_records fid borders ents sels maxT minL) :
    ∃ idx wt w, r = wallRecordOf fid idx wt w ∧
      wallPairGeom w.s1 w.s2 maxT minL = some w.geom := by
  cases sels with
  | none => cases hr
  | some l =>
    simp only [build_wall_records] at hr
    by_cases h1 : l = []
    · rw [if_pos h1] at hr
      cases hr
    · rw [if_neg h1] at hr
      split at hr
      · cases hr
      · obtain ⟨iw, hiw, hreq⟩ := List.mem_map.mp hr
        obtain ⟨idx, wtw⟩ := iw
        have hw : wtw ∈ ((findWalls (collectWallSegs (wallBboxOf borders)
            (upperTruthy (selGet l "struct-cwall-layer"))
            (upperTruthy (selGet l "non-wall-layer")) ents).1 maxT minL).map
              (fun w => ("structural", w)) ++
            (findWalls (collectWallSegs (wallBboxOf borders)
            (upperTruthy (selGet l "struct-cwall-layer"))
            (upperTruthy (selGet l "non-wall-layer")) ents).2 maxT minL).map
              (fun w => ("non_structural", w))) := by
          have h2 := List.mem_map_of_mem Prod.snd hiw
          rwa [List.enum_map_snd] at h2
        rcases List.mem_append.mp hw with hw' | hw' <;>
          obtain ⟨w, hwmem, rfl⟩ := List.mem_map.mp hw'
        · exact ⟨idx + 1, "structural", w, hreq.symm,
            (findWallsAux_mem hwmem).2.2⟩
        · exact ⟨idx + 1, "non_structural", w, hreq.symm,
            (findWallsAux_mem hwmem).2.2⟩

/-- Claim C5, amended: every wall the detector emits is built from a pair of
parallel segments whose supporting infinite lines lie at perpendicular
distance at least 1.0 — not strictly greater — and at most `max_thickness`
(stated exactly via the squared distance: `1 ≤ d² ≤ max_thickness²`). -/
theorem C5_wall_distance (fid : String) (borders : List Record) (ents : List Entity)
    (sels : Option Selections) (maxT minL : ℚ) (r : Record)
    (hr : r ∈ build_wall_records fid borders ents sels maxT minL) :
    ∃ p s1 s2 dsq, r.properties = .wall p ∧ p.handles = [s1.h, s2.h] ∧
      are_parallel s1 s2 = true ∧ perpDistSq s1 s2 = some dsq ∧
      1 ≤ dsq ∧ dsq ≤ maxT^2 := by
  obtain ⟨idx, wt, w, rfl, hpair⟩ := build_wall_mem hr
  obtain ⟨hpar, dsq, hq, h1, h2⟩ := wallPairGeom_dist hpair
  exact ⟨_, w.s1, w.s2, dsq, rfl, rfl, hpar, hq, h1, h2⟩

set_option maxRecDepth 10000 in
unseal Rat.add Rat.mul Rat.sub Rat.inv in
/-- Witness for the amended claim C5 at a concrete input (two parallel lines at
distance 200). -/
theorem C5_witness :
    ((build_wall_records "f" [] [tW1, tW3] tSelsW 1000 500).getD 0 dummyRecord ∈
        build_wall_records "f" [] [tW1, tW3] tSelsW 1000 500) ∧
      ∃ p s1 s2 dsq,
        ((build_wall_records "f" [] [tW1, tW3] tSelsW 1000 500).getD 0
            dummyRecord).properties = .wall p ∧
          p.handles = [s1.h, s2.h] ∧ are_parallel s1 s2 = true ∧
          perpDistSq s1 s2 = some dsq ∧ 1 ≤ dsq ∧ dsq ≤ (1000 : ℚ)^2 :=
  ⟨by decide,
   C5_wall_distance "f" [] [tW1, tW3] tSelsW 1000 500 _ (by decide)⟩

set_option maxRecDepth 10000 in
unseal Rat.add Rat.mul Rat.sub Rat.inv in
/-- Claim C6, counterexample: a single LWPOLYLINE entity (handle `p`)
contributes segments `p_0` and `p_1` to two distinct emitted walls — one
paired with line `q`, one with line `r` — so a source entity can participate
in two wall pairings; only segments are consumed at most once. -/
theorem C6_counterexample :
    ((build_wall_records "f" [] [tPoly, tQ, tR] tSelsW 1000 500).map fun r =>
        match r.properties with
        | .wall p => some p.handles
        | _ => none) = [some ["p_0", "q"], some ["p_1", "r"]] ∧
      (extract_line_data tPoly).map Seg.h = ["p_0", "p_1"] := by
  decide

/-- Greedy-pairing invariant: under a duplicate-free index list, accepted
pairings avoid the used set, pair two distinct indices of the list, and are
pairwise disjoint in their indices. -/
theorem findWallsAux_disjoint {maxT minL : ℚ} :
    ∀ {l : List (ℕ × Seg)} {used : List ℕ}, (l.map Prod.fst).Nodup →
      (∀ w ∈ findWallsAux maxT minL l used, w.i ∉ used ∧ w.j ∉ used ∧ w.i ≠ w.j) ∧
        (findWallsAux maxT minL l used).Pairwise
          (fun w1 w2 => w1.i ≠ w2.i ∧ w1.i ≠ w2.j ∧ w1.j ≠ w2.i ∧ w1.j ≠ w2.j) := by
  intro l
  induction l with
  | nil => intro used _; exact ⟨fun w h => absurd h (by simp [findWallsAux]), by simp [findWallsAux]⟩
  | cons p rest ih =>
    intro used hnd
    obtain ⟨i, s1⟩ := p
    have hnd' : (rest.map Prod.fst).Nodup := (List.nodup_cons.mp hnd).2
    have hifst : i ∉ rest.map Prod.fst := (List.nodup_cons.mp hnd).1
    simp only [findWallsAux]
    by_cases hu : i ∈ used
    · rw [if_pos hu]
      exact ih hnd'
    · rw [if_neg hu]
      by_cases hd : segDegenerate s1 = true
      · rw [if_pos hd]
        exact ih hnd'
      · rw [if_neg hd]
        rcases hf : findPartner s1 maxT minL used rest with _ | ⟨j, s2, g⟩
        · exact ih hnd'
        · obtain ⟨hjmem, hjused, _⟩ := findPartner_some hf
          have hjfst : j ∈ rest.map Prod.fst := List.mem_map_of_mem Prod.fst hjmem
          have hij : i ≠ j := fun he => hifst (he ▸ hjfst)
          have ihrec := @ih (j :: i :: used) hnd'
          refine ⟨?_, ?_⟩
          · intro w hw
            rcases List.mem_cons.mp hw with h' | h'
            · subst h'
              exact ⟨hu, hjused, hij⟩
            · have := (ihrec.1 w h')
              refine ⟨fun hc => this.1 (by simp [hc]), fun hc => this.2.1 (by simp [hc]), this.2.2⟩
          · rw [List.pairwise_cons]
            refine ⟨?_, ihrec.2⟩
            intro w hw
            have hin := ihrec.1 w hw
            have hwi : w.i ≠ i := fun hc => hin.1 (by simp [hc])
            have hwj : w.j ≠ i := fun hc => hin.2.1 (by simp [hc])
            have hwi' : w.i ≠ j := fun hc => hin.1 (by simp [hc])
            have hwj' : w.j ≠ j := fun hc => hin.2.1 (by simp [hc])
            exact ⟨fun hc => hwi hc.symm, fun hc => hwj hc.symm,
                   fun hc => hwi' hc.symm, fun hc => hwj' hc.symm⟩

/-- Segment provenance of a wall pairing: the indices address the segment list
and deliver the paired segments. -/
theorem findWalls_get {segs : List Seg} {maxT minL : ℚ} {w : WallRaw}
    (hw : w ∈ findWalls segs maxT minL) :
    segs.get? w.i = some w.s1 ∧ segs.get? w.j = some w.s2 := by
  have hm := findWallsAux_mem hw
  exact ⟨List.mk_mem_enum_iff_get?.mp hm.1, List.mk_mem_enum_iff_get?.mp hm.2.1⟩

/-- The contributing handles of a wall pairing come from the segment list. -/
theorem findWalls_handles_sub {segs : List Seg} {maxT minL : ℚ} {w : WallRaw}
    (hw : w ∈ findWalls segs maxT minL) :
    w.s1.h ∈ segs.map Seg.h ∧ w.s2.h ∈ segs.map Seg.h := by
  have hg := findWalls_get hw
  exact ⟨List.mem_map_of_mem Seg.h (List.get?_mem hg.1),
         List.mem_map_of_mem Seg.h (List.get?_mem hg.2)⟩

/-- Within one layer group with duplicate-free handles, two wall pairings at
distinct positions draw on disjoint handle pairs. -/
theorem findWalls_handles_disjoint {segs : List Seg} {maxT minL : ℚ}
    (hn : (segs.map Seg.h).Nodup) {a b : ℕ} (hab : a ≠ b) {w1 w2 : WallRaw}
    (hA : (findWalls segs maxT minL).get? a = some w1)
    (hB : (findWalls segs maxT minL).get? b = some w2) :
    ∀ x ∈ [w1.s1.h, w1.s2.h], x ∉ [w2.s1.h, w2.s2.h] := by
  have hfstnd : ((segs.enum).map Prod.fst).Nodup := by
    rw [List.enum_map_fst]
    exact List.nodup_range _
  have hdis : (findWalls segs maxT minL).Pairwise
      (fun w1 w2 => w1.i ≠ w2.i ∧ w1.i ≠ w2.j ∧ w1.j ≠ w2.i ∧ w1.j ≠ w2.j) :=
    (@findWallsAux_disjoint maxT minL segs.enum [] hfstnd).2
  have hg1 := findWalls_get (List.get?_mem hA)
  have hg2 := findWalls_get (List.get?_mem hB)
  have hR : w1.i ≠ w2.i ∧ w1.i ≠ w2.j ∧ w1.j ≠ w2.i ∧ w1.j ≠ w2.j := by
    have hpg := List.pairwise_iff_get.mp hdis
    rcases Nat.lt_or_ge a b with hab' | hab'
    · have ha : a < (findWalls segs maxT minL).length := by
        by_contra hc
        rw [List.get?_eq_none.mpr (Nat.le_of_not_lt hc)] at hA
        cases hA
      have hb : b < (findWalls segs maxT minL).length := by
        by_contra hc
        rw [List.get?_eq_none.mpr (Nat.le_of_not_lt hc)] at hB
        cases hB
      have := hpg ⟨a, ha⟩ ⟨b, hb⟩ hab'
      rw [List.get?_eq_get ha] at hA
      rw [List.get?_eq_get hb] at hB
      injection hA with hA
      injection hB with hB
      rw [hA, hB] at this
      exact this
    · have hba : b < a := Nat.lt_of_le_of_ne hab' (fun hc => hab hc.symm)
      have ha : a < (findWalls segs maxT minL).length := by
        by_contra hc
        rw [List.get?_eq_none.mpr (Nat.le_of_not_lt hc)] at hA
        cases hA
      have hb : b < (findWalls segs maxT minL).length := by
        by_contra hc
        rw [List.get?_eq_none.mpr (Nat.le_of_not_lt hc)] at hB
        cases hB
      have := hpg ⟨b, hb⟩ ⟨a, ha⟩ hba
      rw [List.get?_eq_get ha] at hA
      rw [List.get?_eq_get hb] at hB
      injection hA with hA
      injection hB with hB
      rw [hA, hB] at this
      exact ⟨fun hc => this.1 hc.symm, fun hc => this.2.2.1 hc.symm,
             fun hc => this.2.1 hc.symm, fun hc => this.2.2.2 hc.symm⟩
  have key : ∀ (i1 : ℕ) (t1 : Seg), segs.get? i1 = some t1 → ∀ (i2 : ℕ) (t2 : Seg),
      segs.get? i2 = some t2 → i1 ≠ i2 → t1.h ≠ t2.h := by
    intro i1 t1 ht1 i2 t2 ht2 hne he
    have hm1 : (segs.map Seg.h).get? i1 = some t1.h := by
      rw [List.get?_map, ht1]
      rfl
    have hm2 : (segs.map Seg.h).get? i2 = some t2.h := by
      rw [List.get?_map, ht2]
      rfl
    have hlen : i1 < (segs.map Seg.h).length := by
      by_contra hc
      rw [List.get?_eq_none.mpr (Nat.le_of_not_lt hc)] at hm1
      cases hm1
    exact hne (List.get?_inj hlen hn (by rw [hm1, hm2, he]))
  intro x hx hx2
  rcases List.mem_cons.mp hx with hx | hx
  · subst hx
    rcases List.mem_cons.mp hx2 with hy | hy
    · exact key w1.i w1.s1 hg1.1 w2.i w2.s1 hg2.1 hR.1 hy
    · rcases List.mem_cons.mp hy with hy | hy
      · exact key w1.i w1.s1 hg1.1 w2.j w2.s2 hg2.2 hR.2.1 hy
      · cases hy
  · rcases List.mem_cons.mp hx with hx | hx
    · subst hx
      rcases List.mem_cons.mp hx2 with hy | hy
      · exact key w1.j w1.s2 hg1.2 w2.i w2.s1 hg2.1 hR.2.2.1 hy
      · rcases List.mem_cons.mp hy with hy | hy
        · exact key w1.j w1.s2 hg1.2 w2.j w2.s2 hg2.2 hR.2.2.2 hy
        · cases hy
    · cases hx

/-- Claim C6, amended: extracted segments — not source entities — participate
in at most one wall pairing.  When the extracted segments of both layer groups
carry pairwise-distinct handles, two distinct emitted wall records always list
disjoint handle pairs; the counterexample shows a single polyline entity can
still contribute different segments of its own to two different walls. -/
theorem C6_wall_segment_disjoint (fid : String) (borders : List Record)
    (ents : List Entity) (l : Selections) (maxT minL : ℚ) (k1 k2 : ℕ)
    (r1 r2 : Record) (p1 p2 : WallProps)
    (hnodup : (((collectWallSegs (wallBboxOf borders)
            (upperTruthy (selGet l "struct-cwall-layer"))
            (upperTruthy (selGet l "non-wall-layer")) ents).1 ++
          (collectWallSegs (wallBboxOf borders)
            (upperTruthy (selGet l "struct-cwall-layer"))
            (upperTruthy (selGet l "non-wall-layer")) ents).2).map Seg.h).Nodup)
    (hk : k1 ≠ k2)
    (h1 : (build_wall_records fid borders ents (some l) maxT minL).get? k1 = some r1)
    (h2 : (build_wall_records fid borders ents (some l) maxT minL).get? k2 = some r2)
    (hp1 : r1.properties = .wall p1) (hp2 : r2.properties = .wall p2) :
    ∀ x ∈ p1.handles, x ∉ p2.handles := by
  set segs1 := (collectWallSegs (wallBboxOf borders)
      (upperTruthy (selGet l "struct-cwall-layer"))
      (upperTruthy (selGet l "non-wall-layer")) ents).1 with hs1
  set segs2 := (collectWallSegs (wallBboxOf borders)
      (upperTruthy (selGet l "struct-cwall-layer"))
      (upperTruthy (selGet l "non-wall-layer")) ents).2 with hs2
  rw [List.map_append] at hnodup
  have hnd := List.nodup_append.mp hnodup
  set rawsS := (findWalls segs1 maxT minL).map
    (fun w => (("structural" : String), w)) with hrs
  set rawsN := (findWalls segs2 maxT minL).map
    (fun w => (("non_structural" : String), w)) with hrn
  have hbw : build_wall_records fid borders ents (some l) maxT minL = [] ∨
      build_wall_records fid borders ents (some l) maxT minL =
        ((rawsS ++ rawsN).enum).map
          (fun iw => wallRecordOf fid (iw.1 + 1) iw.2.1 iw.2.2) := by
    simp only [build_wall_records]
    by_cases hl : l = []
    · rw [if_pos hl]
      exact Or.inl rfl
    · rw [if_neg hl]
      split
      · exact Or.inl rfl
      · exact Or.inr rfl
  rcases hbw with hbw | hbw
  · rw [hbw] at h1
    cases h1
  rw [hbw] at h1 h2
  rw [List.get?_map, List.get?_enum] at h1 h2
  rcases hq1 : (rawsS ++ rawsN).get? k1 with _ | wtw1
  · rw [hq1] at h1
    cases h1
  rcases hq2 : (rawsS ++ rawsN).get? k2 with _ | wtw2
  · rw [hq2] at h2
    cases h2
  rw [hq1] at h1
  rw [hq2] at h2
  simp only [Option.map_some'] at h1 h2
  injection h1 with h1
  injection h2 with h2
  subst h1
  subst h2
  simp only [wallRecordOf] at hp1 hp2
  injection hp1 with hp1
  injection hp2 with hp2
  rw [← hp1, ← hp2]
  have lenS : rawsS.length = (findWalls segs1 maxT minL).length := List.length_map _ _
  rcases Nat.lt_or_ge k1 rawsS.length with hk1 | hk1 <;>
    rcases Nat.lt_or_ge k2 rawsS.length with hk2 | hk2
  · -- both structural
    rw [List.get?_append hk1] at hq1
    rw [List.get?_append hk2] at hq2
    rw [hrs, List.get?_map] at hq1 hq2
    rcases hw1 : (findWalls segs1 maxT minL).get? k1 with _ | w1
    · rw [hw1] at hq1
      cases hq1
    rcases hw2 : (findWalls segs1 maxT minL).get? k2 with _ | w2
    · rw [hw2] at hq2
      cases hq2
    rw [hw1] at hq1
    rw [hw2] at hq2
    injection hq1 with hq1
    injection hq2 with hq2
    subst hq1
    subst hq2
    exact findWalls_handles_disjoint hnd.1 hk hw1 hw2
  · -- k1 structural, k2 non-structural
    rw [List.get?_append hk1] at hq1
    rw [List.get?_append_right hk2] at hq2
    rw [hrs, List.get?_map] at hq1
    rw [hrn, List.get?_map] at hq2
    rcases hw1 : (findWalls segs1 maxT minL).get? k1 with _ | w1
    · rw [hw1] at hq1
      cases hq1
    rcases hw2 : (findWalls segs2 maxT minL).get? (k2 - rawsS.length) with _ | w2
    · rw [hw2] at hq2
      cases hq2
    rw [hw1] at hq1
    rw [hw2] at hq2
    injection hq1 with hq1
    injection hq2 with hq2
    subst hq1
    subst hq2
    intro x hx hx2
    have hxin1 : x ∈ segs1.map Seg.h := by
      have hsub := findWalls_handles_sub (List.get?_mem hw1)
      rcases List.mem_cons.mp hx with h' | h'
      · exact h' ▸ hsub.1
      · rcases List.mem_cons.mp h' with h'' | h''
        · exact h'' ▸ hsub.2
        · cases h''
    have hxin2 : x ∈ segs2.map Seg.h := by
      have hsub := findWalls_handles_sub (List.get?_mem hw2)
      rcases List.mem_cons.mp hx2 with h' | h'
      · exact h' ▸ hsub.1
      · rcases List.mem_cons.mp h' with h'' | h''
        · exact h'' ▸ hsub.2
        · cases h''
    exact hnd.2.2 hxin1 hxin2
  · -- k1 non-structural, k2 structural
    rw [List.get?_append_right hk1] at hq1
    rw [List.get?_append hk2] at hq2
    rw [hrn, List.get?_map] at hq1
    rw [hrs, List.get?_map] at hq2
    rcases hw1 : (findWalls segs2 maxT minL).get? (k1 - rawsS.length) with _ | w1
    · rw [hw1] at hq1
      cases hq1
    rcases hw2 : (findWalls segs1 maxT minL).get? k2 with _ | w2
    · rw [hw2] at hq2
      cases hq2
    rw [hw1] at hq1
    rw [hw2] at hq2
    injection hq1 with hq1
    injection hq2 with hq2
    subst hq1
    subst hq2
    intro x hx hx2
    have hxin1 : x ∈ segs2.map Seg.h := by
      have hsub := findWalls_handles_sub (List.get?_mem hw1)
      rcases List.mem_cons.mp hx with h' | h'
      · exact h' ▸ hsub.1
      · rcases List.mem_cons.mp h' with h'' | h''
        · exact h'' ▸ hsub.2
        · cases h''
    have hxin2 : x ∈ segs1.map Seg.h := by
      have hsub := findWalls_handles_sub (List.get?_mem hw2)
      rcases List.mem_cons.mp hx2 with h' | h'
      · exact h' ▸ hsub.1
      · rcases List.mem_cons.mp h' with h'' | h''
        · exact h'' ▸ hsub.2
        · cases h''
    exact hnd.2.2 hxin2 hxin1
  · -- both non-structural
    rw [List.get?_append_right hk1] at hq1
    rw [List.get?_append_right hk2] at hq2
    rw [hrn, List.get?_map] at hq1 hq2
    rcases hw1 : (findWalls segs2 maxT minL).get? (k1 - rawsS.length) with _ | w1
    · rw [hw1] at hq1
      cases hq1
    rcases hw2 : (findWalls segs2 maxT minL).get? (k2 - rawsS.length) with _ | w2
    · rw [hw2] at hq2
      cases hq2
    rw [hw1] at hq1
    rw [hw2] at hq2
    injection hq1 with hq1
    injection hq2 with hq2
    subst hq1
    subst hq2
    have hkk : k1 - rawsS.length ≠ k2 - rawsS.length := by
      intro hc
      apply hk
      have e1 := Nat.sub_add_cancel hk1
      have e2 := Nat.sub_add_cancel hk2
      rw [← e1, ← e2, hc]
    exact findWalls_handles_disjoint hnd.2.1 hkk hw1 hw2

set_option maxRecDepth 10000 in
unseal Rat.add Rat.mul Rat.sub Rat.inv in
/-- Witness for the amended claim C6 at a concrete input: the two walls found
on the polyline input list the disjoint handle pairs `[p_0, q]` and
`[p_1, r]`. -/
theorem C6_witness :
    (((collectWallSegs (wallBboxOf ([] : List Record))
          (upperTruthy (selGet [("non-wall-layer", ["W"])] "struct-cwall-layer"))
          (upperTruthy (selGet [("non-wall-layer", ["W"])] "non-wall-layer"))
          [tPoly, tQ, tR]).1 ++
        (collectWallSegs (wallBboxOf ([] : List Record))
          (upperTruthy (selGet [("non-wall-layer", ["W"])] "struct-cwall-layer"))
          (upperTruthy (selGet [("non-wall-layer", ["W"])] "non-wall-layer"))
          [tPoly, tQ, tR]).2).map Seg.h).Nodup ∧
      ∀ x ∈ tC6p1.handles, x ∉ tC6p2.handles :=
  ⟨by decide,
   C6_wall_segment_disjoint "f" [] [tPoly, tQ, tR] [("non-wall-layer", ["W"])] 1000 500
     0 1
     ((build_wall_records "f" [] [tPoly, tQ, tR] tSelsW 1000 500).getD 0 dummyRecord)
     ((build_wall_records "f" [] [tPoly, tQ, tR] tSelsW 1000 500).getD 1 dummyRecord)
     tC6p1 tC6p2 (by decide) (by decide) (by decide) (by decide) (by decide) (by decide)⟩

/-- Claim C10: wall-candidate segments are bbox-filtered against only the
first border's world bbox — an entity with extractable points not all inside
that bbox contributes nothing (removing it leaves the output unchanged), even
if its points lie inside a later border's bbox — and with an empty border list
the pre-filter never skips any entity. -/
theorem C10_bbox_filter :
    (∀ (fid : String) (b : Record) (rest : List Record) (bbox : Bbox) (e : Entity)
        (l1 l2 : List Entity) (sels : Option Selections) (maxT minL : ℚ),
        b.bboxWorld? = some bbox →
        (e.type = some "LINE" ∨ e.type = some "LWPOLYLINE") →
        extract_points e ≠ [] →
        points_inside_bbox (extract_points e) bbox = false →
        build_wall_records fid (b :: rest) (l1 ++ e :: l2) sels maxT minL =
          build_wall_records fid (b :: rest) (l1 ++ l2) sels maxT minL) ∧
      ∀ e : Entity, wallEntSkip (wallBboxOf []) e = false := by
  constructor
  · intro fid b rest bbox e l1 l2 sels maxT minL hb hty hpts hin
    have hbb : wallBboxOf (b :: rest) = some bbox := by
      simp [wallBboxOf, hb]
    have hskip : wallEntSkip (wallBboxOf (b :: rest)) e = true := by
      rw [hbb]
      unfold wallEntSkip
      simp [hpts, hin]
    have hstep : ∀ structU nonU acc,
        wallCollectStep (wallBboxOf (b :: rest)) structU nonU e acc = acc := by
      intro structU nonU acc
      simp [wallCollectStep, hskip]
    have hcol : ∀ structU nonU,
        collectWallSegs (wallBboxOf (b :: rest)) structU nonU (l1 ++ e :: l2) =
          collectWallSegs (wallBboxOf (b :: rest)) structU nonU (l1 ++ l2) := by
      intro structU nonU
      unfold collectWallSegs
      rw [List.foldr_append, List.foldr_cons, hstep, ← List.foldr_append]
    cases sels with
    | none => rfl
    | some l =>
      simp only [build_wall_records]
      rw [hcol]
  · intro e
    rfl

set_option maxRecDepth 10000 in
unseal Rat.add Rat.mul Rat.sub Rat.inv in
/-- Witness for claim C10 at a concrete input: the line `tFar` lies outside
the first border's bbox but fully inside the second border's bbox, and still
contributes nothing. -/
theorem C10_witness :
    tB1.bboxWorld? = some ⟨0, 0, 1000, 1000⟩ ∧
      points_inside_bbox (extract_points tFar) ⟨0, 0, 1000, 1000⟩ = false ∧
      points_inside_bbox (extract_points tFar) ⟨2000, 0, 4000, 1000⟩ = true ∧
      build_wall_records "f" (tB1 :: [tB2]) ([tW1, tW3] ++ tFar :: []) tSelsW 1000 500 =
        build_wall_records "f" (tB1 :: [tB2]) ([tW1, tW3] ++ []) tSelsW 1000 500 ∧
      wallEntSkip (wallBboxOf []) tFar = false :=
  ⟨by decide, by decide, by decide,
   C10_bbox_filter.1 "f" tB1 [tB2] ⟨0, 0, 1000, 1000⟩ tFar [tW1, tW3] [] tSelsW 1000 500
     (by decide) (by decide) (by decide) (by decide),
   C10_bbox_filter.2 tFar⟩

/-- Banker's rounding fixes integers. -/
theorem roundHalfEven_intCast (m : ℤ) : roundHalfEven ((m : ℤ) : ℚ) = m := by
  unfold roundHalfEven
  rw [Int.floor_intCast]
  norm_num

/-- `round(x, 2)` fixes integers. -/
theorem round2_intCast (m : ℤ) : round2 ((m : ℤ) : ℚ) = ((m : ℤ) : ℚ) := by
  unfold round2
  have h : ((m : ℚ) * 100) = (((m * 100 : ℤ) : ℤ) : ℚ) := by push_cast; ring
  rw [h, roundHalfEven_intCast]
  push_cast
  field_simp

/-- Rounded points have integer coordinates. -/
theorem round_point_intPt (p : Point) : IntPt (round_point p) :=
  ⟨roundHalfEven p.1, roundHalfEven p.2, rfl⟩

/-- A cluster's representative point has integer coordinates. -/
theorem clusterPoint_intPt (c : List (ℕ × Point)) : IntPt (clusterPoint c) :=
  round_point_intPt _

/-- Every merged endpoint has integer coordinates. -/
theorem mergedMap_intPt (tol : ℚ) (eps : List (ℕ × Point)) :
    ∀ ip ∈ mergedMap tol eps, IntPt ip.2 := by
  unfold mergedMap
  generalize mergeClusters tol eps = cs
  induction cs with
  | nil => simp
  | cons c rest ih =>
    intro ip hip
    simp only [List.foldr_cons, List.mem_append] at hip
    rcases hip with h | h
    · obtain ⟨q, _, rfl⟩ := List.mem_map.mp h
      exact clusterPoint_intPt c
    · exact ih ip h

/-- `dictAppend` preserves integrality of all nodes and neighbors. -/
theorem dictAppend_graphInt {g : Graph} {k : Point} {v : Point × ℕ}
    (hg : GraphInt g) (hk : IntPt k) (hv : IntPt v.1) : GraphInt (dictAppend g k v) := by
  induction g with
  | nil =>
    intro kv hkv
    simp only [dictAppend, List.mem_singleton] at hkv
    subst hkv
    refine ⟨hk, ?_⟩
    intro nb hnb
    simp only [List.mem_singleton] at hnb
    subst hnb
    exact hv
  | cons p rest ih =>
    obtain ⟨k', vs⟩ := p
    intro kv hkv
    simp only [dictAppend] at hkv
    split at hkv
    · rcases List.mem_cons.mp hkv with h | h
      · subst h
        refine ⟨(hg _ (List.mem_cons_self _ _)).1, ?_⟩
        intro nb hnb
        rcases List.mem_append.mp hnb with h' | h'
        · exact (hg _ (List.mem_cons_self _ _)).2 nb h'
        · simp only [List.mem_singleton] at h'
          subst h'
          exact hv
      · exact hg _ (List.mem_cons_of_mem _ h)
    · rcases List.mem_cons.mp hkv with h | h
      · subst h
        exact hg _ (List.mem_cons_self _ _)
      · exact ih (fun kv' hkv' => hg _ (List.mem_cons_of_mem _ hkv')) _ h

/-- Neighbors looked up in an all-integer graph are integer points. -/
theorem graphGet_int {g : Graph} (hg : GraphInt g) (n : Point) :
    ∀ nb ∈ graphGet g n, IntPt nb.1 := by
  intro nb hnb
  unfold graphGet at hnb
  split at hnb
  · rename_i kv hf
    exact (hg kv (List.mem_of_find?_eq_some hf)).2 nb hnb
  · cases hnb

/-- Normalization only rotates a cycle: its vertices come from the original. -/
theorem normalizeCycle_sub {c : List Point} : ∀ q ∈ normalizeCycle c, q ∈ c := by
  intro q hq
  cases c with
  | nil => simp [normalizeCycle] at hq
  | cons p rest =>
    simp only [normalizeCycle, List.mem_append] at hq
    rcases hq with h | h
    · exact List.drop_subset _ _ h
    · exact List.take_subset _ _ h

/-- A fold preserves any invariant its step preserves. -/
theorem foldl_preserve {α β : Type} (P : β → Prop) (f : β → α → β)
    (hstep : ∀ b a, P b → P (f b a)) :
    ∀ (l : List α) (b : β), P b → P (l.foldl f b) := by
  intro l
  induction l with
  | nil => intro b hb; exact hb
  | cons a rest ih => intro b hb; exact ih _ (hstep b a hb)

/-- All nodes and neighbors of the wall graph are integral. -/
theorem build_wall_graph_int (walls : List Record) (tol : ℚ) :
    GraphInt (build_wall_graph walls tol) := by
  unfold build_wall_graph
  refine foldl_preserve GraphInt _ ?_ walls.enum [] (by intro kv h; cases h)
  intro g iw hg
  dsimp only
  split
  · split
    · split
      · rename_i s e hsm hem
        have hs : IntPt s := by
          obtain ⟨ie, _, hmap⟩ := Option.bind_eq_some.mp hsm
          obtain ⟨me, hme, h⟩ := Option.map_eq_some'.mp hmap
          rw [← h]
          exact mergedMap_intPt _ _ me (List.mem_of_find?_eq_some hme)
        have he : IntPt e := by
          obtain ⟨ie, _, hmap⟩ := Option.bind_eq_some.mp hem
          obtain ⟨me, hme, h⟩ := Option.map_eq_some'.mp hmap
          rw [← h]
          exact mergedMap_intPt _ _ me (List.mem_of_find?_eq_some hme)
        split
        · exact dictAppend_graphInt (dictAppend_graphInt hg hs he) he hs
        · exact hg
      · exact hg
    · exact hg
  · exact hg

/-- A `dfsVisit` step only produces cycles of integral points, given that the
recursive continuation does. -/
theorem dfsVisit_int (start : Point)
    (rec : Point → List Point → List (Point × Point) → List (List Point) → List (List Point))
    (hrec : ∀ cur path pe fnd, (∀ q ∈ path, IntPt q) → (∀ c ∈ fnd, ∀ q ∈ c, IntPt q) →
      ∀ c ∈ rec cur path pe fnd, ∀ q ∈ c, IntPt q)
    (current : Point) (path : List Point) (pe : List (Point × Point))
    (fnd : List (List Point)) (nb : Point × ℕ)
    (hpath : ∀ q ∈ path, IntPt q) (hfnd : ∀ c ∈ fnd, ∀ q ∈ c, IntPt q)
    (hnb : IntPt nb.1) :
    ∀ c ∈ dfsVisit start rec current path pe fnd nb, ∀ q ∈ c, IntPt q := by
  have hdef : dfsVisit start rec current path pe fnd nb =
      (if sortPair current nb.1 ∈ pe then fnd
       else if nb.1 = start ∧ path.length ≥ 3 then
         (if normalizeCycle path ∈ fnd ∨ (normalizeCycle path).reverse ∈ fnd then fnd
          else fnd ++ [normalizeCycle path])
       else if nb.1 ∈ path then fnd
       else rec nb.1 (path ++ [nb.1]) (sortPair current nb.1 :: pe) fnd) := rfl
  rw [hdef]
  split
  · exact hfnd
  · split
    · split
      · exact hfnd
      · intro c hc
        rcases List.mem_append.mp hc with h | h
        · exact hfnd c h
        · simp only [List.mem_singleton] at h
          subst h
          intro q hq
          exact hpath q (normalizeCycle_sub q hq)
    · split
      · exact hfnd
      · refine hrec _ _ _ _ ?_ hfnd
        intro q hq
        rcases List.mem_append.mp hq with h | h
        · exact hpath q h
        · simp only [List.mem_singleton] at h
          subst h
          exact hnb

/-- Cycles found by the bounded DFS over an all-integer graph consist of
integral points. -/
theorem dfsAux_int (g : Graph) (maxLen : ℕ) (start : Point) (hg : GraphInt g) :
    ∀ (fuel : ℕ) (current : Point) (path : List Point) (pe : List (Point × Point))
      (found : List (List Point)),
      (∀ q ∈ path, IntPt q) → (∀ c ∈ found, ∀ q ∈ c, IntPt q) →
      ∀ c ∈ dfsAux g maxLen start fuel current path pe found, ∀ q ∈ c, IntPt q := by
  intro fuel
  induction fuel with
  | zero =>
    intro current path pe found hpath hfound
    simpa only [dfsAux] using hfound
  | succ fuel ih =>
    intro current path pe found hpath hfound
    simp only [dfsAux]
    split
    · exact hfound
    · have key : ∀ (nbs : List (Point × ℕ)), (∀ nb ∈ nbs, IntPt nb.1) →
          ∀ (fnd : List (List Point)), (∀ c ∈ fnd, ∀ q ∈ c, IntPt q) →
          ∀ c ∈ nbs.foldl (dfsVisit start (dfsAux g maxLen start fuel) current path pe) fnd,
            ∀ q ∈ c, IntPt q := by
        intro nbs
        induction nbs with
        | nil =>
          intro _ fnd hfnd
          simpa only [List.foldl_nil] using hfnd
        | cons nb rest ihn =>
          intro hnbs fnd hfnd
          simp only [List.foldl_cons]
          exact ihn (fun x hx => hnbs x (List.mem_cons_of_mem _ hx)) _
            (dfsVisit_int start _ ih current path pe fnd nb hpath hfnd
              (hnbs nb (List.mem_cons_self _ _)))
      exact key _ (graphGet_int hg current) found hfound

/-- Every cycle enumerated from the wall graph consists of integral points. -/
theorem find_minimal_cycles_int (g : Graph) (maxLen : ℕ) (hg : GraphInt g) :
    ∀ c ∈ find_minimal_cycles g maxLen, ∀ q ∈ c, IntPt q := by
  unfold find_minimal_cycles
  split
  · simp
  · have key : ∀ (ns : List Point), (∀ n ∈ ns, IntPt n) →
        ∀ (found : List (List Point)), (∀ c ∈ found, ∀ q ∈ c, IntPt q) →
        ∀ c ∈ ns.foldl
            (fun found start => dfsAux g maxLen start (maxLen + 2) start [start] [] found)
            found,
          ∀ q ∈ c, IntPt q := by
      intro ns
      induction ns with
      | nil =>
        intro _ found hf
        simpa only [List.foldl_nil] using hf
      | cons n rest ihn =>
        intro hns found hf
        simp only [List.foldl_cons]
        refine ihn (fun x hx => hns x (List.mem_cons_of_mem _ hx)) _ ?_
        refine dfsAux_int g maxLen n hg (maxLen + 2) n [n] [] found ?_ hf
        intro q hq
        simp only [List.mem_singleton] at hq
        subst hq
        exact hns q (List.mem_cons_self _ _)
    refine key _ ?_ [] (by intro c hc; cases hc)
    intro n hn
    obtain ⟨kv, hkv, rfl⟩ := List.mem_map.mp hn
    exact (hg kv hkv).1

/-- The filter fold only returns cycles drawn from the accumulator or from the
first components of its input list. -/
theorem roomStep_sub {cycles : List (List Point)} :
    ∀ (l : List (List Point × ℚ)), (∀ ca ∈ l, ca.1 ∈ cycles) →
      ∀ (acc : List (List Point)), (∀ c ∈ acc, c ∈ cycles) →
      ∀ c ∈ l.foldl roomStep acc, c ∈ cycles := by
  intro l
  induction l with
  | nil =>
    intro _ acc hacc
    simpa only [List.foldl_nil] using hacc
  | cons ca rest ih =>
    intro hl acc hacc
    simp only [List.foldl_cons]
    refine ih (fun x hx => hl x (List.mem_cons_of_mem _ hx)) _ ?_
    intro c hc
    unfold roomStep at hc
    split at hc
    · exact hacc c hc
    · split at hc
      · exact hacc c hc
      · split at hc
        · exact hacc c hc
        · rcases List.mem_append.mp hc with h | h
          · exact hacc c h
          · simp only [List.mem_singleton] at h
            subst h
            exact hl ca (List.mem_cons_self _ _)

/-- Accepted minimal cycles are among the candidate cycles. -/
theorem filter_minimal_cycles_sub (cycles : List (List Point)) :
    ∀ c ∈ filter_minimal_cycles cycles, c ∈ cycles := by
  unfold filter_minimal_cycles
  split
  · simp
  · refine roomStep_sub _ ?_ _ (by intro c hc; cases hc)
    intro ca hca
    have hmem := (List.perm_insertionSort cycleLE
      (cycles.map fun c => (c, polygon_area c))).mem_iff.mp hca
    obtain ⟨c, hc, h⟩ := List.mem_map.mp hmem
    rw [← h]
    exact hc

/-- Invariant of the minimality-filter fold: starting from an accepted list
whose areas are at least 100, pairwise ordered by `cycleGood`, and all of area
at most every pending candidate's, folding an area-sorted candidate list whose
second components are the areas of the first keeps both properties. -/
theorem roomFold_good :
    ∀ (l : List (List Point × ℚ)), (∀ p ∈ l, p.2 = polygon_area p.1) →
      l.Pairwise cycleLE →
      ∀ (acc : List (List Point)),
        (∀ c ∈ acc, 100 ≤ polygon_area c) →
        acc.Pairwise cycleGood →
        (∀ a ∈ acc, ∀ p ∈ l, polygon_area a ≤ p.2) →
        (∀ c ∈ l.foldl roomStep acc, 100 ≤ polygon_area c) ∧
          (l.foldl roomStep acc).Pairwise cycleGood := by
  intro l
  induction l with
  | nil =>
    intro _ _ acc h3 h4 _
    exact ⟨h3, h4⟩
  | cons ca rest ih =>
    intro h1 h2 acc h3 h4 h5
    simp only [List.foldl_cons]
    have h1' : ∀ p ∈ rest, p.2 = polygon_area p.1 :=
      fun p hp => h1 p (List.mem_cons_of_mem _ hp)
    have h2' := (List.pairwise_cons.mp h2).2
    have hhead := (List.pairwise_cons.mp h2).1
    have hca : ca.2 = polygon_area ca.1 := h1 ca (List.mem_cons_self _ _)
    unfold roomStep
    split
    · exact ih h1' h2' acc h3 h4 (fun a ha p hp => h5 a ha p (List.mem_cons_of_mem _ hp))
    · rename_i hlt
      split
      · exact ih h1' h2' acc h3 h4 (fun a ha p hp => h5 a ha p (List.mem_cons_of_mem _ hp))
      · rename_i cen hcen
        split
        · exact ih h1' h2' acc h3 h4 (fun a ha p hp => h5 a ha p (List.mem_cons_of_mem _ hp))
        · rename_i hany
          refine ih h1' h2' (acc ++ [ca.1]) ?_ ?_ ?_
          · intro c hc
            rcases List.mem_append.mp hc with h | h
            · exact h3 c h
            · simp only [List.mem_singleton] at h
              subst h
              rw [← hca]
              exact le_of_not_lt hlt
          · rw [List.pairwise_append]
            refine ⟨h4, List.pairwise_singleton _ _, ?_⟩
            intro a ha b hb
            simp only [List.mem_singleton] at hb
            subst hb
            constructor
            · have := h5 a ha ca (List.mem_cons_self _ _)
              rwa [hca] at this
            · intro cen' hcen'
              have hee := hcen.symm.trans hcen'
              cases hee
              rcases Bool.eq_false_or_eq_true (point_in_polygon cen a) with h | h
              · exact absurd (List.any_eq_true.mpr ⟨a, ha, h⟩) hany
              · exact h
          · intro a ha p hp
            rcases List.mem_append.mp ha with h | h
            · exact h5 a h p (List.mem_cons_of_mem _ hp)
            · simp only [List.mem_singleton] at h
              subst h
              rw [← hca]
              exact hhead p hp

/-- The accepted minimal cycles all have area at least 100 and are pairwise
ordered by `cycleGood`: every earlier accepted cycle has no larger area and
does not contain any later accepted cycle's centroid. -/
theorem filter_minimal_cycles_good (cycles : List (List Point)) :
    (∀ c ∈ filter_minimal_cycles cycles, 100 ≤ polygon_area c) ∧
      (filter_minimal_cycles cycles).Pairwise cycleGood := by
  unfold filter_minimal_cycles
  split
  · simp
  · refine roomFold_good _ ?_ ?_ [] (by intro c hc; cases hc) List.Pairwise.nil
      (by intro a ha; cases ha)
    · intro p hp
      have hmem := (List.perm_insertionSort cycleLE
        (cycles.map fun c => (c, polygon_area c))).mem_iff.mp hp
      obtain ⟨c, _, h⟩ := List.mem_map.mp hmem
      rw [← h]
    · exact List.sorted_insertionSort cycleLE _

/-- A room record built from a cycle of integral points stores exactly that
cycle as its vertex ring: rounding to two decimals fixes integer coordinates. -/
theorem mkRoomRecord_room (fid : String) (texts : List (Point × String)) (i : ℕ)
    (cycle : List Point) (hint : ∀ q ∈ cycle, IntPt q) :
    ∃ p : RoomProps, (mkRoomRecord fid texts i cycle).properties = RProps.room p ∧
      ptsOfVerts p.vertices = cycle := by
  refine ⟨_, rfl, ?_⟩
  show (cycle.map fun p => (⟨round2 p.1, round2 p.2⟩ : PtR)).map (fun v => (v.x, v.y)) = cycle
  rw [List.map_map]
  have hfix : ∀ q ∈ cycle,
      ((fun v : PtR => (v.x, v.y)) ∘ fun p : Point => (⟨round2 p.1, round2 p.2⟩ : PtR)) q =
        id q := by
    intro q hq
    obtain ⟨a, b, rfl⟩ := hint q hq
    simp [Function.comp, round2_intCast]
  rw [List.map_congr_left hfix, List.map_id]

/-- The room detector's output is empty or the per-cycle record map over the
accepted minimal cycles, with one fixed interior-text list. -/
theorem build_room_records_shape (fid : String) (walls : List Record) (ents : List Entity)
    (tol : ℚ) :
    build_room_records fid walls ents tol = [] ∨
      ∃ texts : List (Point × String),
        build_room_records fid walls ents tol =
          (filter_minimal_cycles (find_minimal_cycles (build_wall_graph walls tol) 20)).enum.map
            fun ic => mkRoomRecord fid texts (ic.1 + 1) ic.2 := by
  unfold build_room_records
  dsimp only
  split
  · exact Or.inl rfl
  · split
    · exact Or.inl rfl
    · split
      · exact Or.inl rfl
      · split
        · exact Or.inl rfl
        · exact Or.inr ⟨_, rfl⟩

set_option maxRecDepth 10000 in
unseal Rat.add Rat.mul Rat.sub Rat.inv in
/-- Claim C7, counterexample: on the two-rectangle wall set the detector emits
two rooms of equal polygon area 48000, and the FIRST room's centroid (120, 100)
lies inside the SECOND room's polygon — an emitted room's centroid inside
another emitted room of equal area, which the claim says is discarded as
non-minimal.  The filter only tests a candidate's centroid against
previously-accepted cycles, so the reverse nesting escapes it. -/
theorem C7_counterexample :
    build_room_records "f" tWalls8 [] 50 = tRooms8 ∧
      tRooms8.length = 2 ∧
      polygon_area (ptsOfVerts (tRoomP 0).vertices) = 48000 ∧
      polygon_area (ptsOfVerts (tRoomP 1).vertices) = 48000 ∧
      polygon_centroid (ptsOfVerts (tRoomP 0).vertices) = some (120, 100) ∧
      point_in_polygon (120, 100) (ptsOfVerts (tRoomP 1).vertices) = true :=
  ⟨rfl, by decide, by decide, by decide, by decide, by decide⟩

/-- Claim C7, amended: every emitted room's polygon has area at least 100, and
for two emitted rooms in output order the earlier one has no larger polygon
area and never contains the later one's centroid.  The unamended converse —
that an earlier room's centroid cannot lie in a later room of equal area —
fails (see the counterexample). -/
theorem C7_room_minimality (fid : String) (walls : List Record) (ents : List Entity)
    (tol : ℚ) :
    (∀ r ∈ build_room_records fid walls ents tol, ∀ p : RoomProps,
        r.properties = RProps.room p → 100 ≤ polygon_area (ptsOfVerts p.vertices)) ∧
      ∀ (i j : ℕ), i < j →
        ∀ (r1 r2 : Record) (p1 p2 : RoomProps),
          (build_room_records fid walls ents tol).get? i = some r1 →
          (build_room_records fid walls ents tol).get? j = some r2 →
          r1.properties = RProps.room p1 → r2.properties = RProps.room p2 →
          polygon_area (ptsOfVerts p1.vertices) ≤ polygon_area (ptsOfVerts p2.vertices) ∧
            ∀ cen, polygon_centroid (ptsOfVerts p2.vertices) = some cen →
              point_in_polygon cen (ptsOfVerts p1.vertices) = false := by
  rcases build_room_records_shape fid walls ents tol with h | ⟨texts, h⟩
  · rw [h]
    constructor
    · intro r hr
      cases hr
    · intro i j _ r1 r2 p1 p2 h1 _ _ _
      cases h1
  · rw [h]
    have hgood := filter_minimal_cycles_good (find_minimal_cycles (build_wall_graph walls tol) 20)
    have hintc : ∀ c ∈ filter_minimal_cycles (find_minimal_cycles (build_wall_graph walls tol) 20),
        ∀ q ∈ c, IntPt q := fun c hc =>
      find_minimal_cycles_int _ 20 (build_wall_graph_int walls tol) c
        (filter_minimal_cycles_sub _ c hc)
    generalize hM : filter_minimal_cycles (find_minimal_cycles (build_wall_graph walls tol) 20) =
      minimal at hgood hintc ⊢
    constructor
    · intro r hr p hp
      obtain ⟨ic, hic, rfl⟩ := List.mem_map.mp hr
      have hc2 : ic.2 ∈ minimal := by
        have hm := List.mem_map_of_mem Prod.snd hic
        rwa [List.enum_map_snd] at hm
      obtain ⟨p', hp', hverts⟩ := mkRoomRecord_room fid texts (ic.1 + 1) ic.2 (hintc ic.2 hc2)
      have hpq : p = p' := by
        have hrr := hp.symm.trans hp'
        injection hrr
      subst hpq
      rw [hverts]
      exact hgood.1 ic.2 hc2
    · intro i j hij r1 r2 p1 p2 h1 h2 hp1 hp2
      rw [List.get?_map, List.get?_enum] at h1 h2
      cases hgi : minimal.get? i with
      | none =>
        rw [hgi] at h1
        cases h1
      | some c1 =>
        cases hgj : minimal.get? j with
        | none =>
          rw [hgj] at h2
          cases h2
        | some c2 =>
          rw [hgi] at h1
          rw [hgj] at h2
          have hr1 : r1 = mkRoomRecord fid texts (i + 1) c1 := (Option.some.inj h1).symm
          have hr2 : r2 = mkRoomRecord fid texts (j + 1) c2 := (Option.some.inj h2).symm
          have hm1 : c1 ∈ minimal := List.get?_mem hgi
          have hm2 : c2 ∈ minimal := List.get?_mem hgj
          obtain ⟨q1, hq1, hv1⟩ := mkRoomRecord_room fid texts (i + 1) c1 (hintc c1 hm1)
          obtain ⟨q2, hq2, hv2⟩ := mkRoomRecord_room fid texts (j + 1) c2 (hintc c2 hm2)
          have e1 : p1 = q1 := by
            rw [hr1] at hp1
            have hrr := hp1.symm.trans hq1
            injection hrr
          have e2 : p2 = q2 := by
            rw [hr2] at hp2
            have hrr := hp2.symm.trans hq2
            injection hrr
          subst e1
          subst e2
          obtain ⟨hi, hgeti⟩ := List.get?_eq_some.mp hgi
          obtain ⟨hj, hgetj⟩ := List.get?_eq_some.mp hgj
          have hcg : cycleGood c1 c2 := by
            have hP := List.pairwise_iff_get.mp hgood.2 ⟨i, hi⟩ ⟨j, hj⟩ (Fin.mk_lt_mk.mpr hij)
            rwa [hgeti, hgetj] at hP
          rw [hv1, hv2]
          exact hcg

set_option maxRecDepth 10000 in
unseal Rat.add Rat.mul Rat.sub Rat.inv in
/-- Witness for C7 at the two-rectangle wall set: the two emitted rooms, taken
at output positions 0 and 1, satisfy the amended area ordering and centroid
exclusion. -/
theorem C7_witness :
    polygon_area (ptsOfVerts (tRoomP 0).vertices) ≤
        polygon_area (ptsOfVerts (tRoomP 1).vertices) ∧
      ∀ cen, polygon_centroid (ptsOfVerts (tRoomP 1).vertices) = some cen →
        point_in_polygon cen (ptsOfVerts (tRoomP 0).vertices) = false :=
  (C7_room_minimality "f" tWalls8 [] 50).2 0 1 (by decide)
    (tRooms8.getD 0 dummyRecord) (tRooms8.getD 1 dummyRecord) (tRoomP 0) (tRoomP 1)
    (by decide) (by decide) (by decide) (by decide)

/-- The fueled decimal digits agree with `Nat.digits` once the fuel covers the
value. -/
theorem natDigitsF_eq : ∀ (fuel n : ℕ), n ≤ fuel → natDigitsF fuel n = Nat.digits 10 n := by
  intro fuel
  induction fuel with
  | zero =>
    intro n hn
    have h0 : n = 0 := Nat.le_zero.mp hn
    subst h0
    simp [natDigitsF]
  | succ fuel ih =>
    intro n hn
    cases n with
    | zero => simp [natDigitsF]
    | succ m =>
      have hle : (m + 1) / 10 ≤ fuel :=
        Nat.le_of_lt_succ (Nat.lt_of_lt_of_le (Nat.div_lt_self (Nat.succ_pos m) (by norm_num)) hn)
      rw [natDigitsF, ih _ hle, Nat.digits_def' (by norm_num : (1 : ℕ) < 10) (Nat.succ_pos m)]

/-- `Nat.digitChar` is injective below the base 10. -/
theorem digitChar_inj_lt : ∀ x < 10, ∀ y < 10, Nat.digitChar x = Nat.digitChar y → x = y := by
  decide

/-- Mapping `Nat.digitChar` over lists of digits below 10 is injective. -/
theorem map_digitChar_inj : ∀ (xs ys : List ℕ), (∀ x ∈ xs, x < 10) → (∀ y ∈ ys, y < 10) →
    xs.map Nat.digitChar = ys.map Nat.digitChar → xs = ys := by
  intro xs
  induction xs with
  | nil =>
    intro ys _ _ h
    cases ys with
    | nil => rfl
    | cons y ys => cases h
  | cons x xs ih =>
    intro ys hx hy h
    cases ys with
    | nil => cases h
    | cons y ys =>
      simp only [List.map_cons, List.cons.injEq] at h
      have hxy := digitChar_inj_lt x (hx x (List.mem_cons_self _ _))
        y (hy y (List.mem_cons_self _ _)) h.1
      rw [hxy, ih ys (fun a ha => hx a (List.mem_cons_of_mem _ ha))
        (fun a ha => hy a (List.mem_cons_of_mem _ ha)) h.2]

/-- The decimal rendering of a natural number determines the number. -/
theorem natToStr_data_inj : ∀ {a b : ℕ}, (natToStr a).data = (natToStr b).data → a = b := by
  intro a b h
  unfold natToStr at h
  have hb10 : (1 : ℕ) < 10 := by norm_num
  by_cases ha : a = 0 <;> by_cases hb : b = 0
  · rw [ha, hb]
  · rw [if_pos ha, if_neg hb, natDigitsF_eq b b le_rfl] at h
    exfalso
    apply hb
    have h0 : ("0" : String).data = [(0 : ℕ)].map Nat.digitChar := rfl
    rw [h0] at h
    dsimp only at h
    have hzero := map_digitChar_inj [0] ((Nat.digits 10 b).reverse) (by decide)
      (fun x hx => Nat.digits_lt_base hb10 (List.mem_reverse.mp hx)) h
    have hdig : Nat.digits 10 b = [0] := List.reverse_injective (by rw [← hzero]; rfl)
    have hofd := Nat.ofDigits_digits 10 b
    rw [hdig] at hofd
    simpa [Nat.ofDigits] using hofd.symm
  · rw [if_neg ha, if_pos hb, natDigitsF_eq a a le_rfl] at h
    exfalso
    apply ha
    have h0 : ("0" : String).data = [(0 : ℕ)].map Nat.digitChar := rfl
    rw [h0] at h
    dsimp only at h
    have hzero := map_digitChar_inj ((Nat.digits 10 a).reverse) [0]
      (fun x hx => Nat.digits_lt_base hb10 (List.mem_reverse.mp hx)) (by decide) h
    have hdig : Nat.digits 10 a = [0] := List.reverse_injective (by rw [hzero]; rfl)
    have hofd := Nat.ofDigits_digits 10 a
    rw [hdig] at hofd
    simpa [Nat.ofDigits] using hofd.symm
  · rw [if_neg ha, if_neg hb, natDigitsF_eq a a le_rfl, natDigitsF_eq b b le_rfl] at h
    dsimp only at h
    have heq := map_digitChar_inj ((Nat.digits 10 a).reverse) ((Nat.digits 10 b).reverse)
      (fun x hx => Nat.digits_lt_base hb10 (List.mem_reverse.mp hx))
      (fun x hx => Nat.digits_lt_base hb10 (List.mem_reverse.mp hx)) h
    have hdig : Nat.digits 10 a = Nat.digits 10 b := List.reverse_injective heq
    have hda := Nat.ofDigits_digits 10 a
    rw [hdig, Nat.ofDigits_digits 10 b] at hda
    exact hda.symm

/-- The distinct-size-key list is ascending. -/
theorem sortedSizeKeys_sorted (cols : List ColCand) :
    List.Sorted keyLE (sortedSizeKeys cols) :=
  List.sorted_insertionSort keyLE _

/-- The distinct-size-key list has no duplicates. -/
theorem sortedSizeKeys_nodup (cols : List ColCand) : (sortedSizeKeys cols).Nodup :=
  ((List.perm_insertionSort keyLE _).nodup_iff).mpr (List.nodup_dedup _)

/-- The size key of every input column occurs in the distinct-key list. -/
theorem mem_sortedSizeKeys {cols : List ColCand} {c : ColCand} (h : c ∈ cols) :
    sizeKeyOf c ∈ sortedSizeKeys cols := by
  unfold sortedSizeKeys
  rw [(List.perm_insertionSort keyLE _).mem_iff, List.mem_dedup]
  exact List.mem_map_of_mem sizeKeyOf h

/-- Permuting the columns leaves the distinct-size-key list unchanged. -/
theorem sortedSizeKeys_perm {cols cols' : List ColCand} (h : cols.Perm cols') :
    sortedSizeKeys cols = sortedSizeKeys cols' :=
  List.eq_of_perm_of_sorted
    (((List.perm_insertionSort keyLE _).trans ((h.map sizeKeyOf).dedup)).trans
      (List.perm_insertionSort keyLE _).symm)
    (List.sorted_insertionSort keyLE _) (List.sorted_insertionSort keyLE _)

/-- Claim C8: `assign_column_types` gives two columns the same label exactly
when their rounded size keys agree; the key at ascending position `i` of the
distinct-key list is strictly below the key at any later position and labels
every column bearing it `C(i+1)`; and permuting the input list never changes
the label a given column receives. -/
theorem C8_column_types (cols : List ColCand) :
    (∀ p1 ∈ assign_column_types cols, ∀ p2 ∈ assign_column_types cols,
        (p1.2 = p2.2 ↔ sizeKeyOf p1.1 = sizeKeyOf p2.1)) ∧
      (∀ (i j : ℕ) (ki kj : SizeKey), i < j →
          (sortedSizeKeys cols).get? i = some ki →
          (sortedSizeKeys cols).get? j = some kj →
          keyLE ki kj ∧ ki ≠ kj ∧
            ∀ c ∈ cols, sizeKeyOf c = ki → typeLabel cols c = "C" ++ natToStr (i + 1)) ∧
      ∀ (cols' : List ColCand), cols.Perm cols' →
        ∀ p ∈ assign_column_types cols, ∀ p' ∈ assign_column_types cols',
          p.1 = p'.1 → p.2 = p'.2 := by
  refine ⟨?_, ?_, ?_⟩
  · intro p1 hp1 p2 hp2
    obtain ⟨c1, hc1, rfl⟩ := List.mem_map.mp hp1
    obtain ⟨c2, hc2, rfl⟩ := List.mem_map.mp hp2
    show typeLabel cols c1 = typeLabel cols c2 ↔ sizeKeyOf c1 = sizeKeyOf c2
    constructor
    · intro h
      unfold typeLabel at h
      have hd := congrArg String.data h
      rw [String.data_append, String.data_append] at hd
      have hnum := List.append_cancel_left hd
      have hidx : (sortedSizeKeys cols).indexOf (sizeKeyOf c1) =
          (sortedSizeKeys cols).indexOf (sizeKeyOf c2) := by
        have hsucc := natToStr_data_inj hnum
        omega
      exact (List.indexOf_inj (mem_sortedSizeKeys hc1) (mem_sortedSizeKeys hc2)).mp hidx
    · intro h
      unfold typeLabel
      rw [h]
  · intro i j ki kj hij hgi hgj
    obtain ⟨hi, hgeti⟩ := List.get?_eq_some.mp hgi
    obtain ⟨hj, hgetj⟩ := List.get?_eq_some.mp hgj
    have hnd : (sortedSizeKeys cols).Nodup := sortedSizeKeys_nodup cols
    refine ⟨?_, ?_, ?_⟩
    · have hP := List.pairwise_iff_get.mp (sortedSizeKeys_sorted cols) ⟨i, hi⟩ ⟨j, hj⟩
        (Fin.mk_lt_mk.mpr hij)
      rwa [hgeti, hgetj] at hP
    · have hP := List.pairwise_iff_get.mp hnd ⟨i, hi⟩ ⟨j, hj⟩ (Fin.mk_lt_mk.mpr hij)
      rwa [hgeti, hgetj] at hP
    · intro c _ hkey
      unfold typeLabel
      rw [hkey]
      have hidx := List.get_indexOf hnd ⟨i, hi⟩
      rw [hgeti] at hidx
      rw [hidx]
  · intro cols' hperm p hp p' hp'
    obtain ⟨c, hc, rfl⟩ := List.mem_map.mp hp
    obtain ⟨c', hc', rfl⟩ := List.mem_map.mp hp'
    intro heq
    cases heq
    show typeLabel cols c = typeLabel cols' c
    unfold typeLabel
    rw [sortedSizeKeys_perm hperm]

set_option maxRecDepth 4000 in
unseal Rat.add Rat.mul Rat.sub Rat.inv in
/-- Witness for C8 at the three-candidate list: the two swapped-dimension
rectangles share a label, the circle key sits strictly first and labels its
column `C1`, and reversing the input list leaves the circle's label unchanged. -/
theorem C8_witness :
    typeLabel tCols (tCols.getD 0 dummyCand) = typeLabel tCols (tCols.getD 1 dummyCand) ∧
      (keyLE (SizeKey.circle 300) (SizeKey.rect 600 400) ∧
        SizeKey.circle 300 ≠ SizeKey.rect 600 400 ∧
        ∀ c ∈ tCols, sizeKeyOf c = SizeKey.circle 300 →
          typeLabel tCols c = "C" ++ natToStr (0 + 1)) ∧
      typeLabel tCols (tCols.getD 2 dummyCand) =
        typeLabel tCols.reverse (tCols.getD 2 dummyCand) :=
  ⟨((C8_column_types tCols).1
      (tCols.getD 0 dummyCand, typeLabel tCols (tCols.getD 0 dummyCand)) (by decide)
      (tCols.getD 1 dummyCand, typeLabel tCols (tCols.getD 1 dummyCand)) (by decide)).mpr
      (by decide),
   (C8_column_types tCols).2.1 0 1 (SizeKey.circle 300) (SizeKey.rect 600 400)
      (by decide) (by decide) (by decide),
   (C8_column_types tCols).2.2 tCols.reverse (by decide)
      (tCols.getD 2 dummyCand, typeLabel tCols (tCols.getD 2 dummyCand)) (by decide)
      (tCols.getD 2 dummyCand, typeLabel tCols.reverse (tCols.getD 2 dummyCand)) (by decide)
      (by decide)⟩

set_option maxRecDepth 10000 in
unseal Rat.add Rat.mul Rat.sub Rat.inv in
/-- Claim C1: the orchestrator's output never extends past the room records.
On this input the door detector, fed the orchestrator's own walls and rooms,
emits one semantic door record (with a door property bag), yet the
orchestrator's output holds no record carrying a door or room-connectivity
property bag: `build_all_records` stops after the room detector and never
invokes `build_door_records`, so the claimed `... wall, room, door,
connectivity` concatenation never materializes. -/
theorem C1_door_records_missing :
    ((build_door_records "f" (build_wall_records "f" [] [tWa, tWb, tDoor] tSelsWD 1000 500)
          (build_room_records "f" (build_wall_records "f" [] [tWa, tWb, tDoor] tSelsWD 1000 500)
            [tWa, tWb, tDoor] 50)
          [tWa, tWb, tDoor] tSelsWD 500).map Record.kind = ["door"] ∧
        (build_door_records "f" (build_wall_records "f" [] [tWa, tWb, tDoor] tSelsWD 1000 500)
          (build_room_records "f" (build_wall_records "f" [] [tWa, tWb, tDoor] tSelsWD 1000 500)
            [tWa, tWb, tDoor] 50)
          [tWa, tWb, tDoor] tSelsWD 500).all
            (fun r => match r.properties with
              | RProps.door _ => true
              | _ => false) = true) ∧
      (build_all_records "f" [tWa, tWb, tDoor] [] [] tSelsWD
          (rules_from_selections tSelsWD)).all
          (fun r => match r.properties with
            | RProps.door _ => false
            | RProps.connectivity _ => false
            | _ => true) = true :=
  ⟨⟨by decide, by decide⟩, by decide⟩

end Laika
